import Mathlib

/-!
Verification development for the threat-vector core: a shallow embedding of
the geodesy/orientation library (`src/core/math`), the timeline store
(`src/core/sim/timeline.ts`), the camera controller
(`src/render/webgpu/camera.ts`) and the wire-format validator
(`src/core/schema`), together with theorems settling the specification
claims about them.

Numbers are modelled by an arbitrary linear ordered field `α` (JS doubles
idealized as exact arithmetic).  The transcendental `Math` intrinsics the
source calls (`Math.sin`, `Math.cos`, `Math.exp`, ...) are supplied as an
explicit `MathOps α` record, so every definition stays computable and the
theorems quantify over the interpretation of those intrinsics; facts that
genuinely depend on them (for example `sin^2 + cos^2 = 1`) appear as
explicit hypotheses.
-/

namespace ThreatVector

/-- Interface to the JS `Math` intrinsics used by the translated source.
`pi` models `Math.PI`, `log` models `Math.log`. -/
structure MathOps (α : Type) where
  sin : α → α
  cos : α → α
  acos : α → α
  atan2 : α → α → α
  sqrt : α → α
  exp : α → α
  log : α → α
  pi : α

variable {α : Type} [LinearOrderedField α]

/-- Models JS `Math.min` on ordered (non-NaN) values. -/
def jsMin (a b : α) : α := if a ≤ b then a else b

/-- Models JS `Math.max` on ordered (non-NaN) values. -/
def jsMax (a b : α) : α := if b ≤ a then a else b

/-- Models `Math.hypot(x, y)` (idealized: the exact Euclidean norm). -/
def hypot2 (ops : MathOps α) (x y : α) : α := ops.sqrt (x * x + y * y)

/-- Models `Math.hypot(x, y, z)`. -/
def hypot3 (ops : MathOps α) (x y z : α) : α := ops.sqrt (x * x + y * y + z * z)

/-- Models `Math.hypot(x, y, z, w)`. -/
def hypot4 (ops : MathOps α) (x y z w : α) : α := ops.sqrt (x * x + y * y + z * z + w * w)

/-- Source type `Vec3 = [number, number, number]` (`src/core/math/types.ts`). -/
abbrev Vec3 (α : Type) := α × α × α

/-- Source type `Quat = [number, number, number, number]` (x, y, z, w). -/
abbrev Quat (α : Type) := α × α × α × α

/-- Translates `add3` from `src/core/math/vec3.ts` (the camera module defines
an identical local copy). -/
def add3 (a b : Vec3 α) : Vec3 α := (a.1 + b.1, a.2.1 + b.2.1, a.2.2 + b.2.2)

/-- Translates `sub3` from `src/core/math/vec3.ts`. -/
def sub3 (a b : Vec3 α) : Vec3 α := (a.1 - b.1, a.2.1 - b.2.1, a.2.2 - b.2.2)

/-- Translates `scale3` from `src/core/math/vec3.ts`. -/
def scale3 (v : Vec3 α) (s : α) : Vec3 α := (v.1 * s, v.2.1 * s, v.2.2 * s)

/-- Translates `dot3` from `src/core/math/vec3.ts`. -/
def dot3 (a b : Vec3 α) : α := a.1 * b.1 + a.2.1 * b.2.1 + a.2.2 * b.2.2

/-- Translates `cross3` from `src/core/math/vec3.ts` (identical local copy in
the camera module). -/
def cross3 (a b : Vec3 α) : Vec3 α :=
  (a.2.1 * b.2.2 - a.2.2 * b.2.1,
   a.2.2 * b.1 - a.1 * b.2.2,
   a.1 * b.2.1 - a.2.1 * b.1)

/-- Translates `length3` from `src/core/math/vec3.ts`. -/
def length3 (ops : MathOps α) (v : Vec3 α) : α := hypot3 ops v.1 v.2.1 v.2.2

/-- Translates `normalize3` from `src/core/math/vec3.ts` (identical local
copy in the camera module): degenerate input maps to the zero vector. -/
def normalize3 (ops : MathOps α) (v : Vec3 α) : Vec3 α :=
  let len := length3 ops v
  if len < 1e-12 then (0, 0, 0) else (v.1 / len, v.2.1 / len, v.2.2 / len)

/-- Translates `lerp3` from `src/core/math/vec3.ts`. -/
def lerp3 (a b : Vec3 α) (t : α) : Vec3 α :=
  (a.1 + (b.1 - a.1) * t, a.2.1 + (b.2.1 - a.2.1) * t, a.2.2 + (b.2.2 - a.2.2) * t)

/-- Translates `quatIdentity` from `src/core/math/quat.ts`. -/
def quatIdentity : Quat α := (0, 0, 0, 1)

/-- Translates `quatNormalize` from `src/core/math/quat.ts`: a near-zero-norm
quaternion normalizes to the identity. -/
def quatNormalize (ops : MathOps α) (q : Quat α) : Quat α :=
  let n := hypot4 ops q.1 q.2.1 q.2.2.1 q.2.2.2
  if n < 1e-12 then quatIdentity
  else (q.1 / n, q.2.1 / n, q.2.2.1 / n, q.2.2.2 / n)

/-- Translates `quatMultiply` (Hamilton product) from `src/core/math/quat.ts`. -/
def quatMultiply (a b : Quat α) : Quat α :=
  let ax := a.1; let ay := a.2.1; let az := a.2.2.1; let aw := a.2.2.2
  let bx := b.1; let b_y := b.2.1; let bz := b.2.2.1; let bw := b.2.2.2
  (aw * bx + ax * bw + ay * bz - az * b_y,
   aw * b_y - ax * bz + ay * bw + az * bx,
   aw * bz + ax * b_y - ay * bx + az * bw,
   aw * bw - ax * bx - ay * b_y - az * bz)

/-- Translates `quatSlerp` from `src/core/math/quat.ts`: shortest path (sign
flip on negative dot), linear fallback above cos threshold 0.9995, and a
guard for a vanishing sine. -/
def quatSlerp (ops : MathOps α) (a b : Quat α) (t : α) : Quat α :=
  let q1 := quatNormalize ops a
  let q2 := quatNormalize ops b
  let cosHalfTheta0 := q1.1 * q2.1 + q1.2.1 * q2.2.1 + q1.2.2.1 * q2.2.2.1 + q1.2.2.2 * q2.2.2.2
  let q2' := if cosHalfTheta0 < 0 then (-q2.1, -q2.2.1, -q2.2.2.1, -q2.2.2.2) else q2
  let cosHalfTheta := if cosHalfTheta0 < 0 then -cosHalfTheta0 else cosHalfTheta0
  if 0.9995 < cosHalfTheta then
    quatNormalize ops
      (q1.1 + (q2'.1 - q1.1) * t,
       q1.2.1 + (q2'.2.1 - q1.2.1) * t,
       q1.2.2.1 + (q2'.2.2.1 - q1.2.2.1) * t,
       q1.2.2.2 + (q2'.2.2.2 - q1.2.2.2) * t)
  else
    let halfTheta := ops.acos cosHalfTheta
    let sinHalfTheta := ops.sqrt (1 - cosHalfTheta * cosHalfTheta)
    if |sinHalfTheta| < 1e-6 then q1
    else
      let ratioA := ops.sin ((1 - t) * halfTheta) / sinHalfTheta
      let ratioB := ops.sin (t * halfTheta) / sinHalfTheta
      (q1.1 * ratioA + q2'.1 * ratioB,
       q1.2.1 * ratioA + q2'.2.1 * ratioB,
       q1.2.2.1 * ratioA + q2'.2.2.1 * ratioB,
       q1.2.2.2 * ratioA + q2'.2.2.2 * ratioB)

/-- Translates `quatFromBasis` from `src/core/math/quat.ts` (four-case trace
method, axes normalized first). -/
def quatFromBasis (ops : MathOps α) (xAxis yAxis zAxis : Vec3 α) : Quat α :=
  let x := normalize3 ops xAxis
  let y := normalize3 ops yAxis
  let z := normalize3 ops zAxis
  let m00 := x.1; let m01 := y.1; let m02 := z.1
  let m10 := x.2.1; let m11 := y.2.1; let m12 := z.2.1
  let m20 := x.2.2; let m21 := y.2.2; let m22 := z.2.2
  let trace := m00 + m11 + m22
  let q : Quat α :=
    if 0 < trace then
      let s := ops.sqrt (trace + 1.0) * 2
      ((m21 - m12) / s, (m02 - m20) / s, (m10 - m01) / s, 0.25 * s)
    else if m11 < m00 ∧ m22 < m00 then
      let s := ops.sqrt (1.0 + m00 - m11 - m22) * 2
      (0.25 * s, (m01 + m10) / s, (m02 + m20) / s, (m21 - m12) / s)
    else if m22 < m11 then
      let s := ops.sqrt (1.0 + m11 - m00 - m22) * 2
      ((m01 + m10) / s, 0.25 * s, (m12 + m21) / s, (m02 - m20) / s)
    else
      let s := ops.sqrt (1.0 + m22 - m00 - m11) * 2
      ((m02 + m20) / s, (m12 + m21) / s, 0.25 * s, (m10 - m01) / s)
  quatNormalize ops q

/-- WGS84 semi-major axis in meters (`src/core/math/constants.ts`). -/
def WGS84_A : α := 6378137.0

/-- WGS84 semi-minor axis in meters (`src/core/math/constants.ts`). -/
def WGS84_B : α := 6356752.314245

/-- WGS84 first eccentricity squared, `1 - b^2 / a^2`. -/
def WGS84_E2 : α := 1 - (WGS84_B * WGS84_B) / (WGS84_A * WGS84_A : α)

/-- WGS84 second eccentricity squared, `(a^2 - b^2) / b^2`. -/
def WGS84_EP2 : α := ((WGS84_A * WGS84_A : α) - WGS84_B * WGS84_B) / (WGS84_B * WGS84_B : α)

/-- Translates `DEG2RAD = Math.PI / 180` (`src/core/math/constants.ts`). -/
def DEG2RAD (ops : MathOps α) : α := ops.pi / 180

/-- Translates `RAD2DEG = 180 / Math.PI`. -/
def RAD2DEG (ops : MathOps α) : α := 180 / ops.pi

/-- Translates `llaDegToRad` from `src/core/math/geodesy.ts`. -/
def llaDegToRad (ops : MathOps α) (lla : Vec3 α) : Vec3 α :=
  (lla.1 * DEG2RAD ops, lla.2.1 * DEG2RAD ops, lla.2.2)

/-- Translates `llaRadToDeg` from `src/core/math/geodesy.ts`. -/
def llaRadToDeg (ops : MathOps α) (lla : Vec3 α) : Vec3 α :=
  (lla.1 * RAD2DEG ops, lla.2.1 * RAD2DEG ops, lla.2.2)

/-- Translates `llaToEcef` from `src/core/math/geodesy.ts`: closed-form WGS84
forward conversion. -/
def llaToEcef (ops : MathOps α) (llaDegM : Vec3 α) : Vec3 α :=
  let r := llaDegToRad ops llaDegM
  let lat := r.1; let lon := r.2.1; let alt := r.2.2
  let sinLat := ops.sin lat
  let cosLat := ops.cos lat
  let sinLon := ops.sin lon
  let cosLon := ops.cos lon
  let n := WGS84_A / ops.sqrt (1 - WGS84_E2 * sinLat * sinLat)
  ((n + alt) * cosLat * cosLon,
   (n + alt) * cosLat * sinLon,
   (n * (1 - WGS84_E2) + alt) * sinLat)

/-- Translates `ecefToLla` from `src/core/math/geodesy.ts`: Bowring-style
closed-form inverse with the near-polar-axis special case. -/
def ecefToLla (ops : MathOps α) (ecef : Vec3 α) : Vec3 α :=
  let x := ecef.1; let y := ecef.2.1; let z := ecef.2.2
  let p := hypot2 ops x y
  if p < 1e-6 then
    let lat := if 0 ≤ z then ops.pi / 2 else -(ops.pi / 2)
    let alt := |z| - WGS84_B
    llaRadToDeg ops (lat, 0, alt)
  else
    let theta := ops.atan2 (z * WGS84_A) (p * WGS84_B)
    let sinTheta := ops.sin theta
    let cosTheta := ops.cos theta
    let lat := ops.atan2 (z + WGS84_EP2 * WGS84_B * sinTheta * sinTheta * sinTheta)
      (p - WGS84_E2 * WGS84_A * cosTheta * cosTheta * cosTheta)
    let lon := ops.atan2 y x
    let sinLat := ops.sin lat
    let n := WGS84_A / ops.sqrt (1 - WGS84_E2 * sinLat * sinLat)
    let alt := p / ops.cos lat - n
    llaRadToDeg ops (lat, lon, alt)

/-- Result record of `nedBasisAtLla` (`NedBasis` in `src/core/math/types.ts`). -/
structure NedBasis (α : Type) where
  north : Vec3 α
  east : Vec3 α
  down : Vec3 α

/-- Translates `nedBasisAtLla` from `src/core/math/geodesy.ts`: local NED
tangent-plane basis from latitude/longitude only. -/
def nedBasisAtLla (ops : MathOps α) (llaDegM : Vec3 α) : NedBasis α :=
  let r := llaDegToRad ops llaDegM
  let lat := r.1; let lon := r.2.1
  let sinLat := ops.sin lat
  let cosLat := ops.cos lat
  let sinLon := ops.sin lon
  let cosLon := ops.cos lon
  { north := (-sinLat * cosLon, -sinLat * sinLon, cosLat)
    east := (-sinLon, cosLon, 0)
    down := (-cosLat * cosLon, -cosLat * sinLon, -sinLat) }

/-- Translates `bodyFrdToEcefQuat` from `src/core/math/geodesy.ts`. -/
def bodyFrdToEcefQuat (ops : MathOps α) (bodyToNedQuat : Quat α) (llaDegM : Vec3 α) : Quat α :=
  let basis := nedBasisAtLla ops llaDegM
  let nedToEcef := quatFromBasis ops basis.north basis.east basis.down
  quatNormalize ops (quatMultiply nedToEcef bodyToNedQuat)

/-- Translates `ecefToWorld` from `src/core/math/geodesy.ts`. -/
def ecefToWorld (ecef : Vec3 α) : Vec3 α :=
  (ecef.1 / WGS84_A, ecef.2.1 / WGS84_A, ecef.2.2 / WGS84_B)

/-- Source enum `EntityKind` (`src/core/schema/types.ts`). -/
inductive EntityKind where
  | platform
  | weapon
  deriving DecidableEq, Repr

/-- Source enum `Domain` (`src/core/schema/types.ts`). -/
inductive Domain where
  | air
  | ground
  | sea
  | space
  deriving DecidableEq, Repr

/-- Source enum `CombatEventType` (`src/core/schema/types.ts`). -/
inductive CombatEventType where
  | launch
  | impact
  | intercept
  deriving DecidableEq, Repr

/-- Value of a metadata record entry: `string | number | boolean`. -/
inductive MetaValue (α : Type) where
  | str (s : String)
  | num (q : α)
  | bool (b : Bool)
  deriving DecidableEq, Repr

/-- Source interface `PoseSample` (`src/core/schema/types.ts`). -/
structure PoseSample (α : Type) where
  positionLlaDegM : Vec3 α
  orientationBodyToNedQuat : Quat α
  deriving DecidableEq, Repr

/-- Source interface `EntityState` (`src/core/schema/types.ts`); the
`metadata` record is modelled as an insertion-ordered association list. -/
structure EntityState (α : Type) where
  id : String
  kind : EntityKind
  domain : Domain
  modelId : String
  pose : PoseSample α
  velocityEcef : Option (Vec3 α)
  metadata : Option (List (String × MetaValue α))
  deriving DecidableEq, Repr

/-- Source interface `CombatEvent` (`src/core/schema/types.ts`). -/
structure CombatEvent (α : Type) where
  id : String
  type : CombatEventType
  sourceId : Option String
  targetId : Option String
  positionLlaDegM : Vec3 α
  t : α
  deriving DecidableEq, Repr

/-- Source interface `FrameMessage` (`src/core/schema/types.ts`). -/
structure FrameMessage (α : Type) where
  t : α
  entities : List (EntityState α)
  events : Option (List (CombatEvent α))
  deriving DecidableEq, Repr

/-- Sample record of the timeline's per-entity index (`EntitySample` in
`src/core/sim/timeline.ts`). -/
structure EntitySample (α : Type) where
  t : α
  state : EntityState α
  deriving DecidableEq, Repr

/-- Source interface `RuntimeEntityState extends EntityState` with the
pre-computed Earth-fixed Cartesian position. -/
structure RuntimeEntityState (α : Type) extends EntityState α where
  positionEcefM : Vec3 α
  deriving DecidableEq, Repr

/-- Source interface `RuntimeFrameMessage` (`src/core/sim/timeline.ts`); the
source always populates its optional `events` field. -/
structure RuntimeFrameMessage (α : Type) where
  t : α
  entities : List (RuntimeEntityState α)
  events : List (CombatEvent α)
  deriving DecidableEq, Repr

/-- Translates `cloneEntity`: the source takes a defensive deep copy, which on
immutable mathematical values is the identity. -/
def cloneEntity (state : EntityState α) : EntityState α := state

/-- Placeholder sample used as the default of guarded list indexing; every
access in the translation is within bounds, so it is never produced. -/
def dummySample : EntitySample α :=
  ⟨0, ⟨"", EntityKind.platform, Domain.air, "", ⟨(0, 0, 0), (0, 0, 0, 1)⟩, none, none⟩⟩

/-- Loop of `upperBoundByTime` (`src/core/sim/timeline.ts`): binary search on
the half-open index interval `[low, high)` over sample times `ts`. -/
def upperBoundAux (ts : Nat → α) (t : α) (low high : Nat) : Nat :=
  if _h : low < high then
    let mid := (low + high) / 2
    if ts mid ≤ t then upperBoundAux ts t (mid + 1) high else upperBoundAux ts t low mid
  else low
termination_by high - low
decreasing_by
  · have h1 : low ≤ (low + high) / 2 := Nat.le_div_iff_mul_le (by omega) |>.mpr (by omega)
    omega
  · have h2 : (low + high) / 2 < high := Nat.div_lt_iff_lt_mul (by omega) |>.mpr (by omega)
    omega

/-- Translates `upperBoundByTime`: index of the first sample with time
greater than `t` (equal times step right). -/
def upperBoundByTime (samples : List (EntitySample α)) (t : α) : Nat :=
  upperBoundAux (fun i => (samples.getD i dummySample).t) t 0 samples.length

/-- Translates `cloneRuntimeEntity` from `src/core/sim/timeline.ts`. -/
def cloneRuntimeEntity (ops : MathOps α) (state : EntityState α) : RuntimeEntityState α :=
  { toEntityState := cloneEntity state
    positionEcefM := llaToEcef ops state.pose.positionLlaDegM }

/-- Translates `interpolateEntityRuntime` from `src/core/sim/timeline.ts`:
equal-time guard, clamped fraction, ECEF lerp, quaternion slerp; the non-pose
entity fields are spread from the later sample `b`. -/
def interpolateEntityRuntime (ops : MathOps α) (a b : EntitySample α) (t : α) :
    RuntimeEntityState α :=
  if a.t = b.t then cloneRuntimeEntity ops a.state
  else
    let alpha := jsMin 1 (jsMax 0 ((t - a.t) / (b.t - a.t)))
    let posAEcef := llaToEcef ops a.state.pose.positionLlaDegM
    let posBEcef := llaToEcef ops b.state.pose.positionLlaDegM
    let posEcef := lerp3 posAEcef posBEcef alpha
    let rot := quatSlerp ops
      (quatNormalize ops a.state.pose.orientationBodyToNedQuat)
      (quatNormalize ops b.state.pose.orientationBodyToNedQuat) alpha
    { toEntityState :=
        { b.state with pose := { b.state.pose with orientationBodyToNedQuat := rot } }
      positionEcefM := posEcef }

/-- Per-entity body of the `sampleAtRuntime` loop: bracket the query time by
binary search, clamp to the first/last sample, otherwise interpolate; an
entity with an empty sample list is skipped (`none`). -/
def sampleEntityAt (ops : MathOps α) (samples : List (EntitySample α)) (t : α) :
    Option (RuntimeEntityState α) :=
  if samples.length = 0 then none
  else
    let right := upperBoundByTime samples t
    if right = 0 then
      some (cloneRuntimeEntity ops (samples.getD 0 dummySample).state)
    else if samples.length ≤ right then
      some (cloneRuntimeEntity ops (samples.getD (samples.length - 1) dummySample).state)
    else
      some (interpolateEntityRuntime ops
        (samples.getD (right - 1) dummySample) (samples.getD right dummySample) t)

/-- Insertion step of the stable ascending sort: an element is placed before
the first element with a strictly larger key, after any equal keys. -/
def insertAsc {β : Type} (key : β → α) (x : β) : List β → List β
  | [] => [x]
  | y :: ys => if key x ≤ key y then x :: y :: ys else y :: insertAsc key x ys

/-- Models the JS stable ascending `Array.sort((a, b) => keyA - keyB)` used by
the timeline (stable insertion sort: original order of equal keys is kept). -/
def sortAsc {β : Type} (key : β → α) : List β → List β
  | [] => []
  | x :: xs => insertAsc key x (sortAsc key xs)

/-- Models one `Map.set`-style upsert of the entity index: an existing id
keeps its position and appends the sample, a new id is appended at the end
(JS `Map` preserves insertion order). -/
def indexInsert (idx : List (String × List (EntitySample α))) (id : String)
    (sample : EntitySample α) : List (String × List (EntitySample α)) :=
  match idx with
  | [] => [(id, [sample])]
  | (k, l) :: rest =>
    if k = id then (k, l ++ [sample]) :: rest else (k, l) :: indexInsert rest id sample

/-- Entity-index half of `rebuildIndices` (`src/core/sim/timeline.ts`): scan
frames in order appending samples per id, then sort each list by time. -/
def rebuildEntityIndex (frames : List (FrameMessage α)) :
    List (String × List (EntitySample α)) :=
  (frames.foldl (fun idx frame =>
      frame.entities.foldl
        (fun idx entity => indexInsert idx entity.id ⟨frame.t, cloneEntity entity⟩) idx)
    []).map (fun entry => (entry.1, sortAsc (fun s => s.t) entry.2))

/-- Event-index half of `rebuildIndices`: concatenate the frames' event lists
in order, then sort by time. -/
def rebuildEventIndex (frames : List (FrameMessage α)) : List (CombatEvent α) :=
  sortAsc (fun e => e.t)
    (frames.foldl (fun acc frame => acc ++ frame.events.getD []) [])

/-- State owned by the `TimelineStore` class: the time-ordered frames, the
per-entity sample index and the flat event index. -/
structure TimelineStore (α : Type) where
  frames : List (FrameMessage α)
  entityIndex : List (String × List (EntitySample α))
  eventIndex : List (CombatEvent α)
  deriving DecidableEq, Repr

/-- Initial state of a `new TimelineStore()`. -/
def emptyStore : TimelineStore α := ⟨[], [], []⟩

/-- Translates `setFrames`: replace all frames by a sorted copy of the input
and rebuild both indices from them (the previous state is discarded). -/
def setFrames (frames : List (FrameMessage α)) (_store : TimelineStore α) : TimelineStore α :=
  let sorted := sortAsc (fun f => f.t) frames
  { frames := sorted
    entityIndex := rebuildEntityIndex sorted
    eventIndex := rebuildEventIndex sorted }

/-- Translates `eventsNear`: all indexed events with time in the closed
window `[t - halfWindowSec, t + halfWindowSec]`. -/
def eventsNear (store : TimelineStore α) (t halfWindowSec : α) : List (CombatEvent α) :=
  if store.eventIndex.length = 0 then []
  else
    store.eventIndex.filter fun event =>
      decide (t - halfWindowSec ≤ event.t) && decide (event.t ≤ t + halfWindowSec)

/-- Translates `sampleAtRuntime`: per tracked entity, the bracketed sample
resolution of `sampleEntityAt`, plus the events near `t`. -/
def sampleAtRuntime (ops : MathOps α) (store : TimelineStore α) (t : α) :
    RuntimeFrameMessage α :=
  { t
    entities := store.entityIndex.filterMap (fun entry => sampleEntityAt ops entry.2 t)
    events := eventsNear store t 0.15 }

/-- Translates `sampleAt`: the wire-format wrapper converting runtime ECEF
positions back to geographic coordinates. -/
def sampleAt (ops : MathOps α) (store : TimelineStore α) (t : α) : FrameMessage α :=
  let runtime := sampleAtRuntime ops store t
  { t
    entities := runtime.entities.map (fun entity =>
      { entity.toEntityState with
        pose := { entity.pose with positionLlaDegM := ecefToLla ops entity.positionEcefM } })
    events := some (eventsNear store t 0.15) }

/-- Source enum `CameraMode` (`src/render/types.ts`). -/
inductive CameraMode where
  | static
  | orbit
  | entityLock
  deriving DecidableEq, Repr

/-- Camera preset identifiers: the keys of `CAMERA_PRESETS` in
`src/render/webgpu/camera.ts` (`tactical`, `chase`, `close`). -/
inductive CameraPreset where
  | tactical
  | chase
  | close
  deriving DecidableEq, Repr

/-- Source interface `CameraInputState` (`src/render/types.ts`). -/
structure CameraInputState (α : Type) where
  orbitDelta : α × α
  panDelta : α × α
  zoomDelta : α
  isInteracting : Bool
  deriving DecidableEq, Repr

/-- Source interface `CameraState` (`src/render/webgpu/camera.ts`). -/
structure CameraState (α : Type) where
  yawRad : α
  pitchRad : α
  distance : α
  chaseEnabled : Bool
  chaseYawOffsetRad : α
  chasePitchOffsetRad : α
  chaseZoomScale : α
  eye : Vec3 α
  target : Vec3 α
  up : Vec3 α
  deriving DecidableEq, Repr

/-- Chase anchor pose (`chasePose` of `CameraUpdateParams`): eye/target/up in
the render frame. -/
structure ChasePose (α : Type) where
  eye : Vec3 α
  target : Vec3 α
  up : Vec3 α
  deriving DecidableEq, Repr

/-- Source interface `CameraUpdateParams` (`src/render/webgpu/camera.ts`);
`entityLockTarget` and `chasePose` collapse `undefined`/`null` to `none`. -/
structure CameraUpdateParams (α : Type) where
  mode : CameraMode
  dtSec : α
  input : Option (CameraInputState α)
  presetRequest : Option CameraPreset
  entityLockTarget : Option (Vec3 α)
  chasePose : Option (ChasePose α)
  deriving DecidableEq, Repr

/-- Distance/pitch entry of the `CAMERA_PRESETS` table. -/
structure CameraPresetEntry (α : Type) where
  distance : α
  pitchRad : α
  deriving DecidableEq, Repr

/-- Translates the `CAMERA_PRESETS` table from `src/render/webgpu/camera.ts`. -/
def CAMERA_PRESETS : CameraPreset → CameraPresetEntry α
  | CameraPreset.tactical => ⟨2.4, 0.45⟩
  | CameraPreset.chase => ⟨2.4, 0.45⟩
  | CameraPreset.close => ⟨1.35, 0.55⟩

/-- Camera constant `ORBIT_PERIOD_SECONDS_SOLAR = 86400`. -/
def ORBIT_PERIOD_SECONDS_SOLAR : α := 86400

/-- Camera constant `ORBIT_RATE_RAD_PER_SEC = 2π / 86400`. -/
def ORBIT_RATE_RAD_PER_SEC (ops : MathOps α) : α :=
  2 * ops.pi / ORBIT_PERIOD_SECONDS_SOLAR

/-- Camera constant `PITCH_MIN_RAD = -1.25`. -/
def PITCH_MIN_RAD : α := -1.25

/-- Camera constant `PITCH_MAX_RAD = 1.25`. -/
def PITCH_MAX_RAD : α := 1.25

/-- Camera constant `DIST_MIN = 1.15`. -/
def DIST_MIN : α := 1.15

/-- Camera constant `DIST_MAX = 6.0`. -/
def DIST_MAX : α := 6.0

/-- Camera constant `PAN_SCALE = 1.6`. -/
def PAN_SCALE : α := 1.6

/-- Camera constant `ORBIT_YAW_SENSITIVITY = 1.5π`. -/
def ORBIT_YAW_SENSITIVITY (ops : MathOps α) : α := ops.pi * 1.5

/-- Camera constant `ORBIT_PITCH_SENSITIVITY = π`. -/
def ORBIT_PITCH_SENSITIVITY (ops : MathOps α) : α := ops.pi

/-- Camera constant `ZOOM_SENSITIVITY = 0.85`. -/
def ZOOM_SENSITIVITY : α := 0.85

/-- Camera constant `CHASE_PITCH_OFFSET_MIN_RAD = -0.95`. -/
def CHASE_PITCH_OFFSET_MIN_RAD : α := -0.95

/-- Camera constant `CHASE_PITCH_OFFSET_MAX_RAD = 0.95`. -/
def CHASE_PITCH_OFFSET_MAX_RAD : α := 0.95

/-- Camera constant `CHASE_ZOOM_SCALE_MIN = 0.45`. -/
def CHASE_ZOOM_SCALE_MIN : α := 0.45

/-- Camera constant `CHASE_ZOOM_SCALE_MAX = 2.5`. -/
def CHASE_ZOOM_SCALE_MAX : α := 2.5

/-- Camera constant `CHASE_RECENTER_HALF_LIFE_SEC = 0.35`. -/
def CHASE_RECENTER_HALF_LIFE_SEC : α := 0.35

/-- Translates `clamp` from `src/render/webgpu/camera.ts`:
`Math.max(min, Math.min(max, value))`. -/
def clamp (value lo hi : α) : α := jsMax lo (jsMin hi value)

/-- Translates `safeNormalize3` from `src/render/webgpu/camera.ts`: falls back
when the normalized vector is (near) zero. -/
def safeNormalize3 (ops : MathOps α) (v fallback : Vec3 α) : Vec3 α :=
  let normalized := normalize3 ops v
  if hypot3 ops normalized.1 normalized.2.1 normalized.2.2 < 1e-6 then fallback
  else normalized

/-- Translates `decayToZero` from `src/render/webgpu/camera.ts`: exponential
decay with half-life, snapping to exact zero below `1e-5`. -/
def decayToZero (ops : MathOps α) (value dtSec halfLifeSec : α) : α :=
  let safeHalfLife := jsMax 1e-3 halfLifeSec
  let factor := ops.exp ((-(ops.log 2) * jsMax 0 dtSec) / safeHalfLife)
  let next := value * factor
  if |next| < 1e-5 then 0 else next

/-- Tuple `zeroInput` from `src/render/webgpu/camera.ts`. -/
def zeroInput : CameraInputState α :=
  { orbitDelta := (0, 0), panDelta := (0, 0), zoomDelta := 0, isInteracting := false }

/-- Result record of `toCameraFrame`. -/
structure CameraFrame (α : Type) where
  eye : Vec3 α
  up : Vec3 α
  right : Vec3 α
  deriving DecidableEq, Repr

/-- Translates `toCameraFrame` from `src/render/webgpu/camera.ts`: the
spherical eye/up/right reconstruction around `target`. -/
def toCameraFrame (ops : MathOps α) (target : Vec3 α) (yawRad pitchRad distance : α) :
    CameraFrame α :=
  let cosPitch := ops.cos pitchRad
  let sinPitch := ops.sin pitchRad
  let cosYaw := ops.cos yawRad
  let sinYaw := ops.sin yawRad
  let eye : Vec3 α :=
    (target.1 + distance * cosPitch * cosYaw,
     target.2.1 + distance * cosPitch * sinYaw,
     target.2.2 + distance * sinPitch)
  let forward := normalize3 ops (sub3 target eye)
  let right := normalize3 ops (cross3 forward (0, 0, 1))
  let safeRight : Vec3 α :=
    if hypot3 ops right.1 right.2.1 right.2.2 < 1e-6 then (1, 0, 0) else right
  let up := normalize3 ops (cross3 safeRight forward)
  { eye := eye, up := up, right := safeRight }

/-- Result record of `toChaseBasis`. -/
structure ChaseBasis (α : Type) where
  back : Vec3 α
  right : Vec3 α
  up : Vec3 α
  distance : α
  deriving DecidableEq, Repr

/-- Translates `toChaseBasis` from `src/render/webgpu/camera.ts`: orthonormal
back/right/up basis from the anchor's eye-minus-target offset and up hint. -/
def toChaseBasis (ops : MathOps α) (target : Vec3 α) (chasePose : ChasePose α) :
    ChaseBasis α :=
  let baseOffset := sub3 chasePose.eye target
  let distance := jsMax 1e-4 (hypot3 ops baseOffset.1 baseOffset.2.1 baseOffset.2.2)
  let back := safeNormalize3 ops baseOffset (1, 0, 0)
  let upHint := safeNormalize3 ops chasePose.up (0, 0, 1)
  let right0 := normalize3 ops (cross3 upHint back)
  let right1 :=
    if hypot3 ops right0.1 right0.2.1 right0.2.2 < 1e-6 then
      normalize3 ops (cross3 (0, 1, 0) back)
    else right0
  let safeRight := safeNormalize3 ops right1 (1, 0, 0)
  let up := safeNormalize3 ops (cross3 back safeRight) upHint
  { back := back, right := safeRight, up := up, distance := distance }

/-- Translates `createInitialCameraState`: the tactical preset framing the
origin with yaw 0 and chase disabled. -/
def createInitialCameraState (ops : MathOps α) : CameraState α :=
  let preset := CAMERA_PRESETS (α := α) CameraPreset.tactical
  let target : Vec3 α := (0, 0, 0)
  let yawRad : α := 0
  let pitchRad := preset.pitchRad
  let distance := preset.distance
  let frame := toCameraFrame ops target yawRad pitchRad distance
  { yawRad := yawRad
    pitchRad := pitchRad
    distance := distance
    chaseEnabled := false
    chaseYawOffsetRad := 0
    chasePitchOffsetRad := 0
    chaseZoomScale := 1
    eye := frame.eye
    target := target
    up := frame.up }

/-- Translates `applyCameraPreset` from `src/render/webgpu/camera.ts`: the
`chase` preset only toggles the chase flag and resets the chase offsets and
zoom scale; any other preset clears chase state and moves pitch/distance to
the clamped table entry, recomputing eye/up. -/
def applyCameraPreset (ops : MathOps α) (state : CameraState α) (preset : CameraPreset) :
    CameraState α :=
  if preset = CameraPreset.chase then
    { state with
      chaseEnabled := true
      chaseYawOffsetRad := 0
      chasePitchOffsetRad := 0
      chaseZoomScale := 1 }
  else
    let p := CAMERA_PRESETS (α := α) preset
    let nextPitch := clamp p.pitchRad PITCH_MIN_RAD PITCH_MAX_RAD
    let nextDistance := clamp p.distance DIST_MIN DIST_MAX
    let frame := toCameraFrame ops state.target state.yawRad nextPitch nextDistance
    { state with
      chaseEnabled := false
      chaseYawOffsetRad := 0
      chasePitchOffsetRad := 0
      chaseZoomScale := 1
      pitchRad := nextPitch
      distance := nextDistance
      eye := frame.eye
      up := frame.up }

/-- Translates `updateCameraState` from `src/render/webgpu/camera.ts`: the
pure camera transition function.  The source's early `return` from the
entityLock-with-chase branch becomes the first arm of the final `match`. -/
def updateCameraState (ops : MathOps α) (prev : CameraState α)
    (params : CameraUpdateParams α) : CameraState α :=
  let input := params.input.getD zeroInput
  let state :=
    match params.presetRequest with
    | some preset => applyCameraPreset ops prev preset
    | none => prev
  let target0 :=
    if params.mode = CameraMode.entityLock then params.entityLockTarget.getD state.target
    else state.target
  match params.chasePose, params.mode, state.chaseEnabled with
  | some pose, CameraMode.entityLock, true =>
    let lockTarget := params.entityLockTarget.getD pose.target
    let basis := toChaseBasis ops lockTarget pose
    let chaseYawOffsetRad0 :=
      state.chaseYawOffsetRad + input.orbitDelta.1 * ORBIT_YAW_SENSITIVITY ops
    let chasePitchOffsetRad0 :=
      clamp (state.chasePitchOffsetRad + input.orbitDelta.2 * ORBIT_PITCH_SENSITIVITY ops)
        CHASE_PITCH_OFFSET_MIN_RAD CHASE_PITCH_OFFSET_MAX_RAD
    let chaseZoomScale :=
      clamp (state.chaseZoomScale * ops.exp (input.zoomDelta * ZOOM_SENSITIVITY))
        CHASE_ZOOM_SCALE_MIN CHASE_ZOOM_SCALE_MAX
    let hasOrbitInput := 1e-9 < |input.orbitDelta.1| ∨ 1e-9 < |input.orbitDelta.2|
    let chaseYawOffsetRad :=
      if input.isInteracting = false ∧ ¬ hasOrbitInput then
        decayToZero ops chaseYawOffsetRad0 params.dtSec CHASE_RECENTER_HALF_LIFE_SEC
      else chaseYawOffsetRad0
    let chasePitchOffsetRad :=
      if input.isInteracting = false ∧ ¬ hasOrbitInput then
        decayToZero ops chasePitchOffsetRad0 params.dtSec CHASE_RECENTER_HALF_LIFE_SEC
      else chasePitchOffsetRad0
    let cosPitch := ops.cos chasePitchOffsetRad
    let sinPitch := ops.sin chasePitchOffsetRad
    let cosYaw := ops.cos chaseYawOffsetRad
    let sinYaw := ops.sin chaseYawOffsetRad
    let back := safeNormalize3 ops
      (add3
        (add3 (scale3 basis.back (cosPitch * cosYaw)) (scale3 basis.right (cosPitch * sinYaw)))
        (scale3 basis.up sinPitch))
      basis.back
    let eye := add3 lockTarget (scale3 back (basis.distance * chaseZoomScale))
    let right := safeNormalize3 ops (cross3 basis.up back) basis.right
    let up := safeNormalize3 ops (cross3 back right) basis.up
    { state with
      chaseYawOffsetRad := chaseYawOffsetRad
      chasePitchOffsetRad := chasePitchOffsetRad
      chaseZoomScale := chaseZoomScale
      target := lockTarget
      eye := eye
      up := up }
  | _, _, _ =>
    let yawRad0 :=
      if params.mode = CameraMode.orbit ∧ input.isInteracting = false then
        state.yawRad + params.dtSec * ORBIT_RATE_RAD_PER_SEC ops
      else state.yawRad
    let yawRad := yawRad0 + input.orbitDelta.1 * ORBIT_YAW_SENSITIVITY ops
    let pitchRad :=
      clamp (state.pitchRad + input.orbitDelta.2 * ORBIT_PITCH_SENSITIVITY ops)
        PITCH_MIN_RAD PITCH_MAX_RAD
    let distance :=
      clamp (state.distance * ops.exp (input.zoomDelta * ZOOM_SENSITIVITY)) DIST_MIN DIST_MAX
    let initialFrame := toCameraFrame ops target0 yawRad pitchRad distance
    let target :=
      if params.mode ≠ CameraMode.entityLock then
        let panX := -input.panDelta.1 * distance * PAN_SCALE
        let panY := input.panDelta.2 * distance * PAN_SCALE
        add3 target0 (add3 (scale3 initialFrame.right panX) (scale3 initialFrame.up panY))
      else target0
    let frame := toCameraFrame ops target yawRad pitchRad distance
    { yawRad := yawRad
      pitchRad := pitchRad
      distance := distance
      chaseEnabled := state.chaseEnabled
      chaseYawOffsetRad := state.chaseYawOffsetRad
      chasePitchOffsetRad := state.chasePitchOffsetRad
      chaseZoomScale := state.chaseZoomScale
      eye := frame.eye
      target := target
      up := frame.up }

/-- Little-endian decimal digits of a natural number. -/
def natDigits (n : Nat) : List Nat :=
  if n < 10 then [n] else n % 10 :: natDigits (n / 10)
termination_by n
decreasing_by
  have : n / 10 < n := Nat.div_lt_self (by omega) (by omega)
  omega

/-- Decimal digit as a character. -/
def digitChar : Nat → Char
  | 0 => '0' | 1 => '1' | 2 => '2' | 3 => '3' | 4 => '4'
  | 5 => '5' | 6 => '6' | 7 => '7' | 8 => '8' | _ => '9'

/-- Models the JS decimal rendering `String(n)` of an array index, used both
for index-keyed array properties and for template-interpolated indices in validator error paths. -/
def natKey (n : Nat) : String := ⟨((natDigits n).reverse.map digitChar)⟩

/-- JS runtime value as seen by the validator (the output of `JSON.parse`
plus `undefined` and non-finite numbers).  `num` holds a finite number;
`nonfinite` stands for `NaN`/`±Infinity` (`typeof` "number", not finite). -/
inductive Jval (α : Type) where
  | undef
  | null
  | bool (b : Bool)
  | num (q : α)
  | nonfinite
  | str (s : String)
  | arr (elems : List (Jval α))
  | obj (fields : List (String × Jval α))

/-- Translates `isRecord`: `typeof value === "object" && value !== null`.
JS arrays also have `typeof` "object", so they pass this test. -/
def isRecordB : Jval α → Bool
  | Jval.obj _ => true
  | Jval.arr _ => true
  | _ => false

/-- Enumerable own properties of a record-like value (`Object.entries`): an
object's fields in insertion order, an array's elements under their decimal
index keys. -/
def fieldsOf : Jval α → List (String × Jval α)
  | Jval.obj fields => fields
  | Jval.arr elems => elems.enum.map (fun p => (natKey p.1, p.2))
  | _ => []

/-- Models JS property access `fields[k]` on a record view: a missing key
reads as `undefined`. -/
def getField (fields : List (String × Jval α)) (k : String) : Jval α :=
  (fields.lookup k).getD Jval.undef

/-- Translates `ensureRecord` from `src/core/schema/validate.ts`, returning
the record view used for the subsequent field accesses. -/
def ensureRecord (v : Jval α) (path : String) : Except String (List (String × Jval α)) :=
  if isRecordB v then Except.ok (fieldsOf v) else Except.error (path ++ " must be an object")

/-- Translates `ensureFiniteNumber`: `typeof value === "number"` and
`Number.isFinite(value)`. -/
def ensureFiniteNumber (v : Jval α) (path : String) : Except String α :=
  match v with
  | Jval.num q => Except.ok q
  | _ => Except.error (path ++ " must be numeric")

/-- Translates `ensureNonEmptyString`. -/
def ensureNonEmptyString (v : Jval α) (path : String) : Except String String :=
  match v with
  | Jval.str s =>
    if s = "" then Except.error (path ++ " must be a non-empty string") else Except.ok s
  | _ => Except.error (path ++ " must be a non-empty string")

/-- Translates `ensureString`. -/
def ensureString (v : Jval α) (path : String) : Except String String :=
  match v with
  | Jval.str s => Except.ok s
  | _ => Except.error (path ++ " must be a string")

/-- Translates `ensureTuple3`: an array of length 3 of finite numbers. -/
def ensureTuple3 (v : Jval α) (path : String) : Except String (Vec3 α) :=
  match v with
  | Jval.arr [a, b, c] => do
    let x ← ensureFiniteNumber a (path ++ "[0]")
    let y ← ensureFiniteNumber b (path ++ "[1]")
    let z ← ensureFiniteNumber c (path ++ "[2]")
    return (x, y, z)
  | _ => Except.error (path ++ " must be a 3-tuple")

/-- Translates `ensureTuple4`: an array of length 4 of finite numbers. -/
def ensureTuple4 (v : Jval α) (path : String) : Except String (Quat α) :=
  match v with
  | Jval.arr [a, b, c, d] => do
    let x ← ensureFiniteNumber a (path ++ "[0]")
    let y ← ensureFiniteNumber b (path ++ "[1]")
    let z ← ensureFiniteNumber c (path ++ "[2]")
    let w ← ensureFiniteNumber d (path ++ "[3]")
    return (x, y, z, w)
  | _ => Except.error (path ++ " must be a 4-tuple")

/-- Translates `ensureEntityKind`. -/
def ensureEntityKind (v : Jval α) (path : String) : Except String EntityKind :=
  match v with
  | Jval.str s =>
    if s = "platform" then Except.ok EntityKind.platform
    else if s = "weapon" then Except.ok EntityKind.weapon
    else Except.error (path ++ " must be platform|weapon")
  | _ => Except.error (path ++ " must be platform|weapon")

/-- Translates `ensureDomain`. -/
def ensureDomain (v : Jval α) (path : String) : Except String Domain :=
  match v with
  | Jval.str s =>
    if s = "air" then Except.ok Domain.air
    else if s = "ground" then Except.ok Domain.ground
    else if s = "sea" then Except.ok Domain.sea
    else if s = "space" then Except.ok Domain.space
    else Except.error (path ++ " must be air|ground|sea|space")
  | _ => Except.error (path ++ " must be air|ground|sea|space")

/-- Translates `ensureCombatEventType`. -/
def ensureCombatEventType (v : Jval α) (path : String) : Except String CombatEventType :=
  match v with
  | Jval.str s =>
    if s = "launch" then Except.ok CombatEventType.launch
    else if s = "impact" then Except.ok CombatEventType.impact
    else if s = "intercept" then Except.ok CombatEventType.intercept
    else Except.error (path ++ " must be launch|impact|intercept")
  | _ => Except.error (path ++ " must be launch|impact|intercept")

/-- Translates `parsePose` from `src/core/schema/validate.ts`. -/
def parsePose (raw : Jval α) (path : String) : Except String (PoseSample α) := do
  let fields ← ensureRecord raw path
  let pos ← ensureTuple3 (getField fields "positionLlaDegM") (path ++ ".positionLlaDegM")
  let orient ←
    ensureTuple4 (getField fields "orientationBodyToNedQuat") (path ++ ".orientationBodyToNedQuat")
  return { positionLlaDegM := pos, orientationBodyToNedQuat := orient }

/-- Success flag of a validator result. -/
def isOkB {ε γ : Type} : Except ε γ → Bool
  | Except.ok _ => true
  | Except.error _ => false

/-- Fail-fast traversal: models a JS `.map` whose callback can `throw`,
aborting the whole traversal at the first error. -/
def mapOrError {β γ : Type} (f : β → Except String γ) : List β → Except String (List γ)
  | [] => Except.ok []
  | x :: xs => do
    let y ← f x
    let ys ← mapOrError f xs
    return y :: ys

/-- Entry loop body of `parseMetadata`: a value must be a string, boolean or
finite number. -/
def parseMetaEntry (path : String) (kv : String × Jval α) :
    Except String (String × MetaValue α) :=
  match kv.2 with
  | Jval.str s => Except.ok (kv.1, MetaValue.str s)
  | Jval.bool b => Except.ok (kv.1, MetaValue.bool b)
  | Jval.num q => Except.ok (kv.1, MetaValue.num q)
  | _ => Except.error (path ++ "." ++ kv.1 ++ " must be string|number|boolean")

/-- Translates `parseMetadata`: every entry value must be a string, boolean
or finite number. -/
def parseMetadata (value : Jval α) (path : String) :
    Except String (List (String × MetaValue α)) := do
  let fields ← ensureRecord value path
  mapOrError (parseMetaEntry path) fields

/-- Models the JS test `value === undefined`. -/
def isUndefB : Jval α → Bool
  | Jval.undef => true
  | _ => false

/-- Optional-field step `obj.f === undefined ? undefined : ensureX(obj.f)`:
an absent field parses to `none`, a present one must satisfy the shape. -/
def parseOptField {γ : Type} (v : Jval α) (f : Jval α → Except String γ) :
    Except String (Option γ) :=
  if isUndefB v then Except.ok none else Except.map some (f v)

/-- Translates `parseEntity` from `src/core/schema/validate.ts`. -/
def parseEntity (raw : Jval α) (path : String) : Except String (EntityState α) := do
  let fields ← ensureRecord raw path
  let velocity ← parseOptField (getField fields "velocityEcef")
    (fun w => ensureTuple3 w (path ++ ".velocityEcef"))
  let metadata ← parseOptField (getField fields "metadata")
    (fun w => parseMetadata w (path ++ ".metadata"))
  let id ← ensureNonEmptyString (getField fields "id") (path ++ ".id")
  let kind ← ensureEntityKind (getField fields "kind") (path ++ ".kind")
  let domain ← ensureDomain (getField fields "domain") (path ++ ".domain")
  let modelId ← ensureNonEmptyString (getField fields "modelId") (path ++ ".modelId")
  let pose ← parsePose (getField fields "pose") (path ++ ".pose")
  return { id := id, kind := kind, domain := domain, modelId := modelId, pose := pose
           velocityEcef := velocity, metadata := metadata }

/-- Translates `parseEvent` from `src/core/schema/validate.ts`. -/
def parseEvent (raw : Jval α) (path : String) : Except String (CombatEvent α) := do
  let fields ← ensureRecord raw path
  let id ← ensureNonEmptyString (getField fields "id") (path ++ ".id")
  let type ← ensureCombatEventType (getField fields "type") (path ++ ".type")
  let sourceId ← parseOptField (getField fields "sourceId")
    (fun w => ensureString w (path ++ ".sourceId"))
  let targetId ← parseOptField (getField fields "targetId")
    (fun w => ensureString w (path ++ ".targetId"))
  let pos ← ensureTuple3 (getField fields "positionLlaDegM") (path ++ ".positionLlaDegM")
  let t ← ensureFiniteNumber (getField fields "t") (path ++ ".t")
  return { id := id, type := type, sourceId := sourceId, targetId := targetId
           positionLlaDegM := pos, t := t }

/-- Translates `parseFrameMessage` from `src/core/schema/validate.ts`. -/
def parseFrameMessage (raw : Jval α) : Except String (FrameMessage α) := do
  let fields ← ensureRecord raw "frame"
  let entitiesRaw ←
    match getField fields "entities" with
    | Jval.arr es => Except.ok es
    | _ => Except.error "frame.entities must be an array"
  let eventsRaw ←
    match getField fields "events" with
    | Jval.undef => Except.ok none
    | Jval.arr es => Except.ok (some es)
    | _ => Except.error "frame.events must be an array when provided"
  let entities ← mapOrError
    (fun p => parseEntity p.2 ("frame.entities[" ++ natKey p.1 ++ "]")) entitiesRaw.enum
  let events ←
    match eventsRaw with
    | none => Except.ok none
    | some es =>
      Except.map some
        (mapOrError (fun p => parseEvent p.2 ("frame.events[" ++ natKey p.1 ++ "]")) es.enum)
  let t ← ensureFiniteNumber (getField fields "t") "frame.t"
  return { t := t, entities := entities, events := events }

/-- Translates `tryParseFrameMessage`: the source wraps `parseFrameMessage`
in try/catch and returns an ok/error result; the embedding's `Except` value
is exactly that result (the parser is total and mutates nothing). -/
def tryParseFrameMessage (raw : Jval α) : Except String (FrameMessage α) :=
  parseFrameMessage raw

/-- Spec wire schema (§6): a finite JSON number. -/
def isFiniteNumberB : Jval α → Bool
  | Jval.num _ => true
  | _ => false

/-- Spec wire schema: a non-empty string. -/
def isNonEmptyStringB : Jval α → Bool
  | Jval.str s => decide (s ≠ "")
  | _ => false

/-- Spec wire schema: any string. -/
def isStringB : Jval α → Bool
  | Jval.str _ => true
  | _ => false

/-- Spec wire schema: a 3-tuple `[x, y, z]` of numbers. -/
def isTuple3B : Jval α → Bool
  | Jval.arr l => decide (l.length = 3) && l.all isFiniteNumberB
  | _ => false

/-- Spec wire schema: a 4-tuple `[x, y, z, w]` of numbers. -/
def isTuple4B : Jval α → Bool
  | Jval.arr l => decide (l.length = 4) && l.all isFiniteNumberB
  | _ => false

/-- Spec wire schema: `kind: "platform" | "weapon"`. -/
def isEntityKindB : Jval α → Bool
  | Jval.str s => decide (s = "platform") || decide (s = "weapon")
  | _ => false

/-- Spec wire schema: `domain: "air" | "ground" | "sea" | "space"`. -/
def isDomainB : Jval α → Bool
  | Jval.str s =>
    decide (s = "air") || decide (s = "ground") || decide (s = "sea") || decide (s = "space")
  | _ => false

/-- Spec wire schema: `type: "launch" | "impact" | "intercept"`. -/
def isEventTypeB : Jval α → Bool
  | Jval.str s =>
    decide (s = "launch") || decide (s = "impact") || decide (s = "intercept")
  | _ => false

/-- Spec wire schema: a metadata value `string | number | boolean`. -/
def isMetaValueB : Jval α → Bool
  | Jval.str _ => true
  | Jval.bool _ => true
  | Jval.num _ => true
  | _ => false

/-- Optional field: absent (`undefined`) or satisfying the given shape. -/
def optFieldB (p : Jval α → Bool) (v : Jval α) : Bool :=
  if isUndefB v then true else p v

/-- Spec wire schema: `metadata?: {string: string|number|boolean}` — a JSON
object of metadata values. -/
def conformsMetadata : Jval α → Bool
  | Jval.obj fields => fields.all (fun kv => isMetaValueB kv.2)
  | _ => false

/-- Metadata shape as the code accepts it: additionally a JS array, whose
index-keyed entries become the metadata record. -/
def conformsMetadataRelaxed : Jval α → Bool
  | Jval.obj fields => fields.all (fun kv => isMetaValueB kv.2)
  | Jval.arr elems => elems.all isMetaValueB
  | _ => false

/-- Spec wire schema: `pose: {positionLlaDegM: [lat,lon,alt],
orientationBodyToNedQuat: [x,y,z,w]}`. -/
def conformsPose : Jval α → Bool
  | Jval.obj fields =>
    isTuple3B (getField fields "positionLlaDegM") &&
    isTuple4B (getField fields "orientationBodyToNedQuat")
  | _ => false

/-- Spec wire schema for one entity, parameterized by the metadata shape. -/
def conformsEntityWith (metaP : Jval α → Bool) : Jval α → Bool
  | Jval.obj fields =>
    isNonEmptyStringB (getField fields "id") &&
    isEntityKindB (getField fields "kind") &&
    isDomainB (getField fields "domain") &&
    isNonEmptyStringB (getField fields "modelId") &&
    conformsPose (getField fields "pose") &&
    optFieldB isTuple3B (getField fields "velocityEcef") &&
    optFieldB metaP (getField fields "metadata")
  | _ => false

/-- Spec wire schema for one event. -/
def conformsEvent : Jval α → Bool
  | Jval.obj fields =>
    isNonEmptyStringB (getField fields "id") &&
    isEventTypeB (getField fields "type") &&
    optFieldB isStringB (getField fields "sourceId") &&
    optFieldB isStringB (getField fields "targetId") &&
    isTuple3B (getField fields "positionLlaDegM") &&
    isFiniteNumberB (getField fields "t")
  | _ => false

/-- Spec wire schema for a frame message, parameterized by the metadata
shape: `{t: number, entities: Entity[], events?: Event[]}`. -/
def conformsFrameWith (metaP : Jval α → Bool) : Jval α → Bool
  | Jval.obj fields =>
    (match getField fields "entities" with
     | Jval.arr es => es.all (conformsEntityWith metaP)
     | _ => false) &&
    (match getField fields "events" with
     | Jval.undef => true
     | Jval.arr es => es.all conformsEvent
     | _ => false) &&
    isFiniteNumberB (getField fields "t")
  | _ => false

/-- Conformance to the v1.0 wire schema exactly as the spec words it
(records are JSON objects). -/
def conformsFrameMessage (v : Jval α) : Bool :=
  conformsFrameWith conformsMetadata v

/-- Conformance as the code decides it: identical to the spec schema except
that a `metadata` field may also be a JS array of valid metadata values. -/
def conformsFrameMessageRelaxed (v : Jval α) : Bool :=
  conformsFrameWith conformsMetadataRelaxed v

/-- Concrete rational interpretation of the `Math` intrinsics, used to
instantiate the quantified theorems at concrete inputs.  The quantified
theorems hold for every interpretation; this one satisfies the algebraic
hypotheses some of them assume (`sin^2 + cos^2 = 1`, `exp 0 = 1`). -/
def witnessOps : MathOps ℚ where
  sin := fun _ => 0
  cos := fun _ => 1
  acos := fun _ => 0
  atan2 := fun _ _ => 0
  sqrt := id
  exp := fun _ => 1
  log := fun _ => 0
  pi := 0

/-- Bounds shorthand for the camera invariant of C3. -/
def pitchDistInRange (s : CameraState α) : Prop :=
  (PITCH_MIN_RAD ≤ s.pitchRad ∧ s.pitchRad ≤ PITCH_MAX_RAD) ∧
    (DIST_MIN ≤ s.distance ∧ s.distance ≤ DIST_MAX)

/-- Concrete previous state for the C3 witness. -/
def c3State : CameraState ℚ :=
  { yawRad := 0, pitchRad := 0.45, distance := 2.4, chaseEnabled := false
    chaseYawOffsetRad := 0, chasePitchOffsetRad := 0, chaseZoomScale := 1
    eye := (2.4, 0, 0), target := (0, 0, 0), up := (0, 0, 1) }

/-- Concrete update parameters for the C3 witness: a huge orbit/zoom input. -/
def c3Params : CameraUpdateParams ℚ :=
  { mode := CameraMode.static, dtSec := 0
    input := some { orbitDelta := (1000, -1000), panDelta := (500, 500)
                    zoomDelta := -1000, isInteracting := true }
    presetRequest := none, entityLockTarget := none, chasePose := none }

/-- Concrete chase-enabled previous state for the C5 witness. -/
def c5State : CameraState ℚ :=
  { yawRad := 0, pitchRad := 0.45, distance := 2.4, chaseEnabled := true
    chaseYawOffsetRad := 0, chasePitchOffsetRad := 0, chaseZoomScale := 1
    eye := (2.4, 0, 0), target := (0, 0, 0), up := (0, 0, 1) }

/-- Concrete chase anchor pose for the C5 witness. -/
def c5Pose : ChasePose ℚ :=
  { eye := (1, 2, 3), target := (0, 1, 2), up := (0, 0, 1) }

/-- First concrete input of the C5 witness. -/
def c5Input1 : CameraInputState ℚ :=
  { orbitDelta := (0, 0), panDelta := (0, 0), zoomDelta := 0, isInteracting := true }

/-- Second concrete input of the C5 witness: same except a large pan. -/
def c5Input2 : CameraInputState ℚ :=
  { orbitDelta := (0, 0), panDelta := (0.8, -0.6), zoomDelta := 0, isInteracting := true }

/-- Concrete previous state for the C10 witness: target at the origin, yaw 0
and pitch 0, so under the witness interpretation (`cos = 1`, `sin = 0`,
`sqrt = id`) the eye/up reconstruction is exactly `(2.4, 0, 0)`/`(0, 0, 1)`. -/
def c10State : CameraState ℚ :=
  { yawRad := 0, pitchRad := 0, distance := 2.4, chaseEnabled := false
    chaseYawOffsetRad := 0, chasePitchOffsetRad := 0, chaseZoomScale := 1
    eye := (2.4, 0, 0), target := (0, 0, 0), up := (0, 0, 1) }

/-- Entity state used by the timeline examples: first sample of `air-1`. -/
def exEntityA : EntityState ℚ :=
  { id := "air-1", kind := EntityKind.platform, domain := Domain.air, modelId := "m0"
    pose := { positionLlaDegM := (0, 0, 10000), orientationBodyToNedQuat := (0, 0, 0, 1) }
    velocityEcef := none, metadata := none }

/-- Entity state used by the timeline examples: later sample of `air-1`,
with a different model reference and position. -/
def exEntityB : EntityState ℚ :=
  { id := "air-1", kind := EntityKind.platform, domain := Domain.air, modelId := "m1"
    pose := { positionLlaDegM := (0, 10, 10000), orientationBodyToNedQuat := (0, 0, 0, 1) }
    velocityEcef := none, metadata := none }

/-- Concrete frame whose only entity carries `metadata: []` (a JS array):
realizable from pure JSON input. -/
def c9BadFrame : Jval ℚ :=
  Jval.obj
    [("t", Jval.num 0),
     ("entities", Jval.arr
       [Jval.obj
         [("id", Jval.str "air-1"), ("kind", Jval.str "platform"),
          ("domain", Jval.str "air"), ("modelId", Jval.str "m0"),
          ("pose", Jval.obj
            [("positionLlaDegM", Jval.arr [Jval.num 0, Jval.num 0, Jval.num 0]),
             ("orientationBodyToNedQuat",
               Jval.arr [Jval.num 0, Jval.num 0, Jval.num 0, Jval.num 1])]),
          ("metadata", Jval.arr [])]])]

/-- Clamping into a nonempty interval lands in the interval. -/
theorem clamp_mem (v lo hi : α) (h : lo ≤ hi) : lo ≤ clamp v lo hi ∧ clamp v lo hi ≤ hi := by
  unfold clamp jsMin jsMax
  split_ifs <;> constructor <;> linarith

/-- Clamping a value already inside the interval is the identity. -/
theorem clamp_eq_self (v lo hi : α) (h1 : lo ≤ v) (h2 : v ≤ hi) : clamp v lo hi = v := by
  unfold clamp jsMin jsMax
  split_ifs <;> linarith

/-- The pitch clamp interval is nonempty. -/
theorem pitch_range_nonempty : (PITCH_MIN_RAD : α) ≤ PITCH_MAX_RAD := by
  unfold PITCH_MIN_RAD PITCH_MAX_RAD
  norm_num

/-- The distance clamp interval is nonempty. -/
theorem dist_range_nonempty : (DIST_MIN : α) ≤ DIST_MAX := by
  unfold DIST_MIN DIST_MAX
  norm_num

/-- Applying any preset keeps pitch and distance inside the clamp ranges. -/
theorem applyCameraPreset_pitchDist (ops : MathOps α) (state : CameraState α)
    (preset : CameraPreset) (h : pitchDistInRange state) :
    pitchDistInRange (applyCameraPreset ops state preset) := by
  unfold applyCameraPreset
  split_ifs with hc
  · exact h
  · refine ⟨⟨?_, ?_⟩, ?_, ?_⟩ <;>
      simp only [pitchDistInRange] <;>
      first
      | exact (clamp_mem _ _ _ pitch_range_nonempty).1
      | exact (clamp_mem _ _ _ pitch_range_nonempty).2
      | exact (clamp_mem _ _ _ dist_range_nonempty).1
      | exact (clamp_mem _ _ _ dist_range_nonempty).2

/-- C3: for every previous camera state whose pitch lies in [-1.25, 1.25]
and whose distance lies in [1.15, 6.0], and for every mode, dt, preset
request, lock target, chase pose and input of arbitrary magnitude, the state
returned by `updateCameraState` again has pitch in [-1.25, 1.25] and
distance in [1.15, 6.0]. -/
theorem updateCameraState_pitchDist_invariant (ops : MathOps α) (prev : CameraState α)
    (params : CameraUpdateParams α) (h : pitchDistInRange prev) :
    pitchDistInRange (updateCameraState ops prev params) := by
  obtain ⟨mode, dtSec, input, presetRequest, entityLockTarget, chasePose⟩ := params
  have hstate : pitchDistInRange
      (match presetRequest with
       | some preset => applyCameraPreset ops prev preset
       | none => prev) := by
    cases presetRequest with
    | some preset => exact applyCameraPreset_pitchDist ops prev preset h
    | none => exact h
  simp only [updateCameraState]
  generalize (match presetRequest with
       | some preset => applyCameraPreset ops prev preset
       | none => prev) = state at hstate ⊢
  rcases chasePose with _ | pose <;> rcases mode <;> rcases hce : state.chaseEnabled <;>
    simp only [pitchDistInRange] at hstate ⊢ <;>
    first
    | exact ⟨hstate.1, hstate.2⟩
    | exact ⟨⟨(clamp_mem _ _ _ pitch_range_nonempty).1,
        (clamp_mem _ _ _ pitch_range_nonempty).2⟩,
      (clamp_mem _ _ _ dist_range_nonempty).1,
      (clamp_mem _ _ _ dist_range_nonempty).2⟩

/-- Witness for C3 at a concrete state and a huge input. -/
theorem updateCameraState_pitchDist_invariant_witness :
    pitchDistInRange c3State ∧
      pitchDistInRange (updateCameraState witnessOps c3State c3Params) := by
  have h : pitchDistInRange c3State := by
    unfold pitchDistInRange c3State PITCH_MIN_RAD PITCH_MAX_RAD DIST_MIN DIST_MAX
    norm_num
  exact ⟨h, updateCameraState_pitchDist_invariant witnessOps c3State c3Params h⟩

/-- C7: `setFrames` is idempotent — calling it a second time with the same
frame list leaves the store's frames, per-entity sample index and event
index identical to the state after the first call (the operation discards
the previous state entirely and rebuilds from its input). -/
theorem setFrames_idempotent (frames : List (FrameMessage α)) (store : TimelineStore α) :
    setFrames frames (setFrames frames store) = setFrames frames store := rfl

/-- C5: when the mode is entityLock, the previous state's chase flag is set,
a chase anchor pose is supplied and no preset request accompanies the tick,
the output of `updateCameraState` does not depend on the pan input: two
calls whose inputs differ only in `panDelta` return equal next states. -/
theorem updateCameraState_ignores_pan_in_chase (ops : MathOps α) (prev : CameraState α)
    (dtSec : α) (i1 i2 : CameraInputState α) (lockTarget : Option (Vec3 α))
    (pose : ChasePose α)
    (hchase : prev.chaseEnabled = true)
    (horbit : i1.orbitDelta = i2.orbitDelta)
    (hzoom : i1.zoomDelta = i2.zoomDelta)
    (hint : i1.isInteracting = i2.isInteracting) :
    updateCameraState ops prev
        ⟨CameraMode.entityLock, dtSec, some i1, none, lockTarget, some pose⟩ =
      updateCameraState ops prev
        ⟨CameraMode.entityLock, dtSec, some i2, none, lockTarget, some pose⟩ := by
  simp only [updateCameraState, Option.getD_some]
  rw [hchase, horbit, hzoom, hint]

/-- Witness for C5 at concrete state, pose and inputs differing only in pan. -/
theorem updateCameraState_ignores_pan_in_chase_witness :
    c5State.chaseEnabled = true ∧ c5Input1.orbitDelta = c5Input2.orbitDelta ∧
      c5Input1.panDelta ≠ c5Input2.panDelta ∧
      updateCameraState witnessOps c5State
          ⟨CameraMode.entityLock, 0.016, some c5Input1, none, none, some c5Pose⟩ =
        updateCameraState witnessOps c5State
          ⟨CameraMode.entityLock, 0.016, some c5Input2, none, none, some c5Pose⟩ := by
  refine ⟨rfl, rfl, by norm_num [c5Input1, c5Input2, Prod.ext_iff], ?_⟩
  exact updateCameraState_ignores_pan_in_chase witnessOps c5State 0.016 c5Input1 c5Input2
    none c5Pose rfl rfl rfl rfl

/-- C6 counterexample: applying the chase preset does not zero the chase
zoom scale — starting from a state whose zoom scale is 2, the result's
chase zoom scale is its neutral value 1, not 0. -/
theorem applyCameraPreset_chase_zoomScale_not_zeroed :
    (applyCameraPreset witnessOps
        { yawRad := 0, pitchRad := 0.45, distance := 2.4, chaseEnabled := false
          chaseYawOffsetRad := 0.3, chasePitchOffsetRad := -0.2, chaseZoomScale := 2
          eye := (2.4, 0, 0), target := (0, 0, 0), up := ((0 : ℚ), 0, 1) }
        CameraPreset.chase).chaseZoomScale = 1 ∧
    (applyCameraPreset witnessOps
        { yawRad := 0, pitchRad := 0.45, distance := 2.4, chaseEnabled := false
          chaseYawOffsetRad := 0.3, chasePitchOffsetRad := -0.2, chaseZoomScale := 2
          eye := (2.4, 0, 0), target := (0, 0, 0), up := ((0 : ℚ), 0, 1) }
        CameraPreset.chase).chaseZoomScale ≠ 0 := by
  constructor <;> simp [applyCameraPreset]

/-- C6 (amended): applying the chase preset sets the chase flag, zeroes the
chase yaw/pitch offsets and resets the chase zoom scale to its neutral value
1, leaving every other field (yaw, pitch, distance, target, eye, up)
unchanged; applying any other preset clears the chase flag, zeroes the chase
offsets, resets the zoom scale to 1 and deterministically sets pitch and
distance to that preset's table entry clamped to the pitch/distance ranges,
leaving yaw and target unchanged. -/
theorem applyCameraPreset_spec (ops : MathOps α) (state : CameraState α)
    (preset : CameraPreset) :
    (preset = CameraPreset.chase →
      applyCameraPreset ops state preset =
        { state with chaseEnabled := true, chaseYawOffsetRad := 0
                     chasePitchOffsetRad := 0, chaseZoomScale := 1 }) ∧
    (preset ≠ CameraPreset.chase →
      (applyCameraPreset ops state preset).chaseEnabled = false ∧
      (applyCameraPreset ops state preset).chaseYawOffsetRad = 0 ∧
      (applyCameraPreset ops state preset).chasePitchOffsetRad = 0 ∧
      (applyCameraPreset ops state preset).chaseZoomScale = 1 ∧
      (applyCameraPreset ops state preset).pitchRad =
        clamp (CAMERA_PRESETS preset).pitchRad PITCH_MIN_RAD PITCH_MAX_RAD ∧
      (applyCameraPreset ops state preset).distance =
        clamp (CAMERA_PRESETS preset).distance DIST_MIN DIST_MAX ∧
      (applyCameraPreset ops state preset).yawRad = state.yawRad ∧
      (applyCameraPreset ops state preset).target = state.target) := by
  constructor
  · intro hc
    subst hc
    simp [applyCameraPreset]
  · intro hc
    simp [applyCameraPreset, hc]

/-- Witness for C6 at a concrete state, exercising both the chase preset and
a non-chase preset. -/
theorem applyCameraPreset_spec_witness :
    (applyCameraPreset witnessOps c5State CameraPreset.chase =
      { c5State with chaseEnabled := true, chaseYawOffsetRad := 0
                     chasePitchOffsetRad := 0, chaseZoomScale := 1 }) ∧
    (applyCameraPreset witnessOps c5State CameraPreset.close).chaseEnabled = false ∧
    (applyCameraPreset witnessOps c5State CameraPreset.close).distance =
      clamp (CAMERA_PRESETS CameraPreset.close).distance DIST_MIN DIST_MAX := by
  refine ⟨(applyCameraPreset_spec witnessOps c5State CameraPreset.chase).1 rfl, ?_, ?_⟩
  · exact ((applyCameraPreset_spec witnessOps c5State CameraPreset.close).2 (by decide)).1
  · exact ((applyCameraPreset_spec witnessOps c5State CameraPreset.close).2
      (by decide)).2.2.2.2.2.1

/-- C8: under the defining property of sine/cosine (`sin^2 + cos^2 = 1`, the
only fact about the trig intrinsics the source relies on), `nedBasisAtLla`
returns three mutually orthogonal unit vectors — pairwise dot products
within 1e-6 of 0 and self dot products within 1e-6 of 1 (they are in fact
exact) — forming a right-handed triad with `north × east = down`, and the
result does not depend on the altitude component. -/
theorem nedBasisAtLla_orthonormal (ops : MathOps α)
    (hpyth : ∀ x : α, ops.sin x * ops.sin x + ops.cos x * ops.cos x = 1)
    (lla : Vec3 α) :
    |dot3 (nedBasisAtLla ops lla).north (nedBasisAtLla ops lla).east| ≤ 1e-6 ∧
    |dot3 (nedBasisAtLla ops lla).north (nedBasisAtLla ops lla).down| ≤ 1e-6 ∧
    |dot3 (nedBasisAtLla ops lla).east (nedBasisAtLla ops lla).down| ≤ 1e-6 ∧
    |dot3 (nedBasisAtLla ops lla).north (nedBasisAtLla ops lla).north - 1| ≤ 1e-6 ∧
    |dot3 (nedBasisAtLla ops lla).east (nedBasisAtLla ops lla).east - 1| ≤ 1e-6 ∧
    |dot3 (nedBasisAtLla ops lla).down (nedBasisAtLla ops lla).down - 1| ≤ 1e-6 ∧
    cross3 (nedBasisAtLla ops lla).north (nedBasisAtLla ops lla).east =
      (nedBasisAtLla ops lla).down ∧
    (∀ alt1 alt2 : α,
      nedBasisAtLla ops (lla.1, lla.2.1, alt1) = nedBasisAtLla ops (lla.1, lla.2.1, alt2)) := by
  have heps : (0 : α) ≤ 1e-6 := by norm_num
  obtain ⟨lat, lon, alt⟩ := lla
  simp only [nedBasisAtLla, llaDegToRad, dot3, cross3]
  set s := ops.sin (lat * DEG2RAD ops) with hs
  set c := ops.cos (lat * DEG2RAD ops) with hc
  set u := ops.sin (lon * DEG2RAD ops) with hu
  set v := ops.cos (lon * DEG2RAD ops) with hv
  have hlat : s * s + c * c = 1 := hpyth _
  have hlon : u * u + v * v = 1 := hpyth _
  refine ⟨?_, ?_, ?_, ?_, ?_, ?_, ?_, fun _ _ => trivial⟩
  · have h : -s * v * -u + -s * u * v + c * 0 = 0 := by ring
    rw [h, abs_zero]
    exact heps
  · have h : -s * v * (-c * v) + -s * u * (-c * u) + c * -s = 0 := by
      linear_combination (s * c) * hlon
    rw [h, abs_zero]
    exact heps
  · have h : -u * (-c * v) + v * (-c * u) + 0 * -s = 0 := by ring
    rw [h, abs_zero]
    exact heps
  · have h : -s * v * (-s * v) + -s * u * (-s * u) + c * c - 1 = 0 := by
      linear_combination (s * s) * hlon + hlat
    rw [h, abs_zero]
    exact heps
  · have h : -u * -u + v * v + 0 * 0 - 1 = 0 := by linear_combination hlon
    rw [h, abs_zero]
    exact heps
  · have h : -c * v * (-c * v) + -c * u * (-c * u) + -s * -s - 1 = 0 := by
      linear_combination (c * c) * hlon + hlat
    rw [h, abs_zero]
    exact heps
  · have h1 : -s * u * 0 - c * v = -c * v := by ring
    have h2 : c * -u - -s * v * 0 = -c * u := by ring
    have h3 : -s * v * v - -s * u * -u = -s := by linear_combination (-s) * hlon
    rw [Prod.ext_iff, Prod.ext_iff]
    exact ⟨h1, h2, h3⟩

/-- Witness for C8: the concrete rational interpretation satisfies the
Pythagorean hypothesis, and the conclusion holds at a concrete position. -/
theorem nedBasisAtLla_orthonormal_witness :
    (∀ x : ℚ, witnessOps.sin x * witnessOps.sin x + witnessOps.cos x * witnessOps.cos x = 1) ∧
    |dot3 (nedBasisAtLla witnessOps (45, -90, 0)).north
        (nedBasisAtLla witnessOps (45, -90, 0)).east| ≤ 1e-6 ∧
    cross3 (nedBasisAtLla witnessOps (45, -90, 0)).north
        (nedBasisAtLla witnessOps (45, -90, 0)).east =
      (nedBasisAtLla witnessOps (45, -90, 0)).down := by
  have hpyth : ∀ x : ℚ,
      witnessOps.sin x * witnessOps.sin x + witnessOps.cos x * witnessOps.cos x = 1 := by
    intro x
    norm_num [witnessOps]
  have h := nedBasisAtLla_orthonormal witnessOps hpyth (45, -90, 0)
  exact ⟨hpyth, h.1, h.2.2.2.2.2.2.1⟩

/-- C10: `updateCameraState` with mode static, zero input and no preset
request is a fixed point: if the previous state's pitch and distance lie in
the clamp ranges and its eye/up equal the spherical reconstruction from its
own target, yaw, pitch and distance, the next state equals the previous
state for every dt, lock target and chase pose (a static camera never
drifts).  The only property of the `Math.exp` intrinsic this needs is
`exp 0 = 1`, taken as a hypothesis. -/
theorem updateCameraState_static_fixed_point (ops : MathOps α)
    (hexp : ops.exp 0 = 1) (prev : CameraState α) (dtSec : α)
    (lockTarget : Option (Vec3 α)) (chaseP : Option (ChasePose α))
    (hp1 : PITCH_MIN_RAD ≤ prev.pitchRad) (hp2 : prev.pitchRad ≤ PITCH_MAX_RAD)
    (hd1 : DIST_MIN ≤ prev.distance) (hd2 : prev.distance ≤ DIST_MAX)
    (heye : prev.eye = (toCameraFrame ops prev.target prev.yawRad prev.pitchRad prev.distance).eye)
    (hup : prev.up = (toCameraFrame ops prev.target prev.yawRad prev.pitchRad prev.distance).up) :
    updateCameraState ops prev
      ⟨CameraMode.static, dtSec, some zeroInput, none, lockTarget, chaseP⟩ = prev := by
  obtain ⟨yaw, pitch, dist, ce, cy, cp, cz, eye, target, up⟩ := prev
  simp only at hp1 hp2 hd1 hd2 heye hup
  rcases chaseP with _ | pose <;> rcases ce <;>
    simp [updateCameraState, zeroInput, hexp, scale3, add3,
      clamp_eq_self _ _ _ hp1 hp2, clamp_eq_self _ _ _ hd1 hd2, heye, hup]

/-- Witness for C10 at the concrete state `c10State`. -/
theorem updateCameraState_static_fixed_point_witness :
    witnessOps.exp 0 = 1 ∧
    c10State.eye =
      (toCameraFrame witnessOps c10State.target c10State.yawRad c10State.pitchRad
        c10State.distance).eye ∧
    updateCameraState witnessOps c10State
      ⟨CameraMode.static, 10, some zeroInput, none, none, none⟩ = c10State := by
  have heye : c10State.eye =
      (toCameraFrame witnessOps c10State.target c10State.yawRad c10State.pitchRad
        c10State.distance).eye := by
    norm_num [c10State, toCameraFrame, witnessOps, normalize3, length3, hypot3, sub3, cross3]
  have hup : c10State.up =
      (toCameraFrame witnessOps c10State.target c10State.yawRad c10State.pitchRad
        c10State.distance).up := by
    norm_num [c10State, toCameraFrame, witnessOps, normalize3, length3, hypot3, sub3, cross3]
  refine ⟨rfl, heye, ?_⟩
  exact updateCameraState_static_fixed_point witnessOps rfl c10State 10 none none
    (by norm_num [c10State, PITCH_MIN_RAD]) (by norm_num [c10State, PITCH_MAX_RAD])
    (by norm_num [c10State, DIST_MIN]) (by norm_num [c10State, DIST_MAX]) heye hup

/-- When every sample time in the search interval is beyond `t`, the binary
search stays at its lower bound. -/
theorem upperBoundAux_all_gt (ts : Nat → α) (t : α) (low high : Nat)
    (h : ∀ i, low ≤ i → i < high → ¬ ts i ≤ t) :
    upperBoundAux ts t low high = low := by
  unfold upperBoundAux
  split
  · next hlt =>
    have hmid1 : low ≤ (low + high) / 2 := Nat.le_div_iff_mul_le (by omega) |>.mpr (by omega)
    have hmid2 : (low + high) / 2 < high := Nat.div_lt_iff_lt_mul (by omega) |>.mpr (by omega)
    rw [if_neg (h _ hmid1 hmid2)]
    exact upperBoundAux_all_gt ts t low _ (fun i hi1 hi2 => h i hi1 (by omega))
  · rfl
termination_by high - low
decreasing_by
  have : (low + high) / 2 < high := Nat.div_lt_iff_lt_mul (by omega) |>.mpr (by omega)
  omega

/-- When every sample time in the search interval is at or before `t`, the
binary search reaches its upper bound. -/
theorem upperBoundAux_all_le (ts : Nat → α) (t : α) (low high : Nat)
    (hlh : low ≤ high) (h : ∀ i, low ≤ i → i < high → ts i ≤ t) :
    upperBoundAux ts t low high = high := by
  unfold upperBoundAux
  split
  · next hlt =>
    have hmid1 : low ≤ (low + high) / 2 := Nat.le_div_iff_mul_le (by omega) |>.mpr (by omega)
    have hmid2 : (low + high) / 2 < high := Nat.div_lt_iff_lt_mul (by omega) |>.mpr (by omega)
    rw [if_pos (h _ hmid1 hmid2)]
    exact upperBoundAux_all_le ts t _ high (by omega) (fun i hi1 hi2 => h i (by omega) hi2)
  · omega
termination_by high - low
decreasing_by
  have : low ≤ (low + high) / 2 := Nat.le_div_iff_mul_le (by omega) |>.mpr (by omega)
  omega

/-- In a list sorted ascending by time, sample times are monotone in the
index. -/
theorem sorted_t_getD_mono (samples : List (EntitySample α))
    (hsorted : List.Sorted (fun a b : EntitySample α => a.t ≤ b.t) samples)
    (i j : Nat) (hij : i ≤ j) (hj : j < samples.length) :
    (samples.getD i dummySample).t ≤ (samples.getD j dummySample).t := by
  rcases eq_or_lt_of_le hij with rfl | hlt
  · exact le_refl _
  · rw [List.getD_eq_getElem _ _ (show i < samples.length by omega),
      List.getD_eq_getElem _ _ hj]
    have h := hsorted.rel_get_of_lt
      (a := ⟨i, by omega⟩) (b := ⟨j, hj⟩) (Fin.mk_lt_mk.mpr hlt)
    simpa [List.get_eq_getElem] using h

/-- Unfolding of `sampleEntityAt` with its local bindings flattened. -/
theorem sampleEntityAt_eq (ops : MathOps α) (samples : List (EntitySample α)) (t : α) :
    sampleEntityAt ops samples t =
      if samples.length = 0 then none
      else if upperBoundByTime samples t = 0 then
        some (cloneRuntimeEntity ops (samples.getD 0 dummySample).state)
      else if samples.length ≤ upperBoundByTime samples t then
        some (cloneRuntimeEntity ops (samples.getD (samples.length - 1) dummySample).state)
      else
        some (interpolateEntityRuntime ops
          (samples.getD (upperBoundByTime samples t - 1) dummySample)
          (samples.getD (upperBoundByTime samples t) dummySample) t) := rfl

/-- C1 (amended): for an entity with at least one indexed sample, the sample
list being sorted ascending by time as the index builds it, `sampleEntityAt`
returns the first sample's state unmodified (as a cloned runtime entity)
whenever the query time is strictly before the first sample's time, and the
last sample's state unmodified whenever the query time is at or after the
last sample's time.  (At a query time exactly equal to the first sample's
time the code instead interpolates with fraction 0 against the next sample —
see the counterexample.) -/
theorem sampleEntityAt_clamps_to_ends (ops : MathOps α) (samples : List (EntitySample α))
    (t : α) (hne : samples ≠ [])
    (hsorted : List.Sorted (fun a b : EntitySample α => a.t ≤ b.t) samples) :
    (t < (samples.getD 0 dummySample).t →
      sampleEntityAt ops samples t =
        some (cloneRuntimeEntity ops (samples.getD 0 dummySample).state)) ∧
    ((samples.getD (samples.length - 1) dummySample).t ≤ t →
      sampleEntityAt ops samples t =
        some (cloneRuntimeEntity ops (samples.getD (samples.length - 1) dummySample).state)) := by
  have hlen : ¬ samples.length = 0 := by
    simpa [List.length_eq_zero] using hne
  constructor
  · intro hfirst
    have hub : upperBoundByTime samples t = 0 := by
      apply upperBoundAux_all_gt
      intro i _ hi hle
      have h0i : (samples.getD 0 dummySample).t ≤ (samples.getD i dummySample).t :=
        sorted_t_getD_mono samples hsorted 0 i (Nat.zero_le _) hi
      exact absurd (le_trans h0i hle) (not_le.mpr hfirst)
    rw [sampleEntityAt_eq, hub]
    simp [hlen]
  · intro hlast
    have hub : upperBoundByTime samples t = samples.length := by
      apply upperBoundAux_all_le _ _ _ _ (Nat.zero_le _)
      intro i _ hi
      exact le_trans
        (sorted_t_getD_mono samples hsorted i (samples.length - 1) (by omega) (by omega)) hlast
    rw [sampleEntityAt_eq, hub]
    simp [hlen]

/-- Witness for C1 (amended) on a concrete two-sample index: strictly before
the first sample the first state is returned, at the last sample's time the
last state is returned. -/
theorem sampleEntityAt_clamps_to_ends_witness :
    ([(⟨0, exEntityA⟩ : EntitySample ℚ), ⟨10, exEntityB⟩] ≠ []) ∧
    sampleEntityAt witnessOps [⟨0, exEntityA⟩, ⟨10, exEntityB⟩] (-1) =
      some (cloneRuntimeEntity witnessOps exEntityA) ∧
    sampleEntityAt witnessOps [⟨0, exEntityA⟩, ⟨10, exEntityB⟩] 11 =
      some (cloneRuntimeEntity witnessOps exEntityB) := by
  have hsorted : List.Sorted (fun a b : EntitySample ℚ => a.t ≤ b.t)
      [⟨0, exEntityA⟩, ⟨10, exEntityB⟩] := by
    simp [List.sorted_cons]
  refine ⟨by simp, ?_, ?_⟩
  · exact (sampleEntityAt_clamps_to_ends witnessOps [⟨0, exEntityA⟩, ⟨10, exEntityB⟩] (-1)
      (by simp) hsorted).1 (by norm_num)
  · exact (sampleEntityAt_clamps_to_ends witnessOps [⟨0, exEntityA⟩, ⟨10, exEntityB⟩] 11
      (by simp) hsorted).2 (by norm_num)

/-- C1 counterexample: in a store holding samples of `air-1` at times 0 and
10, querying `sampleAtRuntime` at time 0 — which is at (hence "at or
before") the first sample's time — does not return the first sample
unmodified: the returned entity carries the later sample's `modelId` `"m1"`
(the code interpolates with fraction 0, spreading the later sample's
fields). -/
theorem sampleAtRuntime_at_first_time_not_first_sample :
    (setFrames [⟨0, [exEntityA], none⟩, ⟨10, [exEntityB], none⟩]
        (emptyStore (α := ℚ))).entityIndex =
      [("air-1", [⟨0, exEntityA⟩, ⟨10, exEntityB⟩])] ∧
    ((sampleAtRuntime witnessOps
        (setFrames [⟨0, [exEntityA], none⟩, ⟨10, [exEntityB], none⟩] emptyStore)
        0).entities.map (fun e => e.modelId)) = ["m1"] ∧
    (sampleAtRuntime witnessOps
        (setFrames [⟨0, [exEntityA], none⟩, ⟨10, [exEntityB], none⟩] emptyStore)
        0).entities ≠ [cloneRuntimeEntity witnessOps exEntityA] := by
  have hidx : (setFrames [⟨0, [exEntityA], none⟩, ⟨10, [exEntityB], none⟩]
      (emptyStore (α := ℚ))).entityIndex =
      [("air-1", [⟨0, exEntityA⟩, ⟨10, exEntityB⟩])] := by
    norm_num [setFrames, sortAsc, insertAsc, rebuildEntityIndex, indexInsert, cloneEntity,
      exEntityA, exEntityB]
  have hub : upperBoundByTime [(⟨0, exEntityA⟩ : EntitySample ℚ), ⟨10, exEntityB⟩] 0 = 1 := by
    unfold upperBoundByTime upperBoundAux
    norm_num
    unfold upperBoundAux
    norm_num
    unfold upperBoundAux
    norm_num
  have hent : sampleEntityAt witnessOps [⟨0, exEntityA⟩, ⟨10, exEntityB⟩] (0 : ℚ) =
      some (interpolateEntityRuntime witnessOps ⟨0, exEntityA⟩ ⟨10, exEntityB⟩ 0) := by
    rw [sampleEntityAt_eq, hub]
    simp
  have hmap : ((sampleAtRuntime witnessOps
      (setFrames [⟨0, [exEntityA], none⟩, ⟨10, [exEntityB], none⟩] emptyStore)
      0).entities.map (fun e => e.modelId)) = ["m1"] := by
    simp only [sampleAtRuntime]
    rw [hidx]
    simp only [List.filterMap_cons, List.filterMap_nil, hent]
    norm_num [interpolateEntityRuntime, exEntityA, exEntityB]
  refine ⟨hidx, hmap, ?_⟩
  intro heq
  have := congrArg (List.map (fun e : RuntimeEntityState ℚ => e.modelId)) heq
  rw [hmap] at this
  simp [cloneRuntimeEntity, cloneEntity, exEntityA] at this

/-- C4 (amended): for an entity whose index holds exactly two samples with
the identical timestamp, `sampleEntityAt` resolves to the first sample's
state for query times strictly before the shared timestamp and to the second
(last) sample's state at or after it; no division by zero can occur because
the equal-timestamp pair never reaches the interpolation path — and
`interpolateEntityRuntime` itself guards that case, returning the first
sample's state (fraction treated as 0). -/
theorem sampleEntityAt_equal_timestamps (ops : MathOps α) (τ : α)
    (a b : EntityState α) (t : α) :
    sampleEntityAt ops [⟨τ, a⟩, ⟨τ, b⟩] t =
      some (cloneRuntimeEntity ops (if t < τ then a else b)) ∧
    (∀ sa sb : EntitySample α, sa.t = sb.t →
      interpolateEntityRuntime ops sa sb t = cloneRuntimeEntity ops sa.state) := by
  constructor
  · by_cases ht : t < τ
    · have hub : upperBoundByTime [(⟨τ, a⟩ : EntitySample α), ⟨τ, b⟩] t = 0 := by
        apply upperBoundAux_all_gt
        intro i _ hi hle
        have hi2 : i < 2 := by simpa using hi
        have hτ : (List.getD [(⟨τ, a⟩ : EntitySample α), ⟨τ, b⟩] i dummySample).t = τ := by
          rcases i with _ | _ | i
          · rfl
          · rfl
          · exact absurd hi2 (by omega)
        rw [hτ] at hle
        exact absurd hle (not_le.mpr ht)
      rw [sampleEntityAt_eq, hub, if_pos ht]
      simp
    · have hub : upperBoundByTime [(⟨τ, a⟩ : EntitySample α), ⟨τ, b⟩] t = 2 := by
        apply upperBoundAux_all_le _ _ _ _ (by omega)
        intro i _ hi
        have hi2 : i < 2 := by simpa using hi
        have hτ : (List.getD [(⟨τ, a⟩ : EntitySample α), ⟨τ, b⟩] i dummySample).t = τ := by
          rcases i with _ | _ | i
          · rfl
          · rfl
          · exact absurd hi2 (by omega)
        rw [hτ]
        exact not_lt.mp ht
      rw [sampleEntityAt_eq, hub, if_neg ht]
      simp
  · intro sa sb hts
    unfold interpolateEntityRuntime
    rw [if_pos hts]

/-- Witness for C4 (amended) on concrete equal-timestamp samples: at the
shared timestamp the second sample's state is returned, and the
interpolation guard returns the first sample's state. -/
theorem sampleEntityAt_equal_timestamps_witness :
    sampleEntityAt witnessOps [⟨0, exEntityA⟩, ⟨0, exEntityB⟩] 0 =
      some (cloneRuntimeEntity witnessOps (if (0 : ℚ) < 0 then exEntityA else exEntityB)) ∧
    interpolateEntityRuntime witnessOps ⟨0, exEntityA⟩ ⟨0, exEntityB⟩ 0 =
      cloneRuntimeEntity witnessOps exEntityA :=
  ⟨(sampleEntityAt_equal_timestamps witnessOps 0 exEntityA exEntityB 0).1,
   (sampleEntityAt_equal_timestamps witnessOps 0 exEntityA exEntityB 0).2
     ⟨0, exEntityA⟩ ⟨0, exEntityB⟩ rfl⟩

/-- C4 counterexample: a store holding two samples of `air-1` that share
timestamp 0 with different states resolves a query at time 0 to the
second sample's state (`modelId` `"m1"`), not the first sample's state as
the claim demands. -/
theorem sampleAtRuntime_equal_timestamps_not_first_sample :
    (setFrames [⟨0, [exEntityA], none⟩, ⟨0, [exEntityB], none⟩]
        (emptyStore (α := ℚ))).entityIndex =
      [("air-1", [⟨0, exEntityA⟩, ⟨0, exEntityB⟩])] ∧
    ((sampleAtRuntime witnessOps
        (setFrames [⟨0, [exEntityA], none⟩, ⟨0, [exEntityB], none⟩] emptyStore)
        0).entities.map (fun e => e.modelId)) = ["m1"] ∧
    (sampleAtRuntime witnessOps
        (setFrames [⟨0, [exEntityA], none⟩, ⟨0, [exEntityB], none⟩] emptyStore)
        0).entities ≠ [cloneRuntimeEntity witnessOps exEntityA] := by
  have hidx : (setFrames [⟨0, [exEntityA], none⟩, ⟨0, [exEntityB], none⟩]
      (emptyStore (α := ℚ))).entityIndex =
      [("air-1", [⟨0, exEntityA⟩, ⟨0, exEntityB⟩])] := by
    norm_num [setFrames, sortAsc, insertAsc, rebuildEntityIndex, indexInsert, cloneEntity,
      exEntityA, exEntityB]
  have hub : upperBoundByTime [(⟨0, exEntityA⟩ : EntitySample ℚ), ⟨0, exEntityB⟩] 0 = 2 := by
    unfold upperBoundByTime upperBoundAux
    norm_num
    unfold upperBoundAux
    norm_num
  have h : sampleEntityAt witnessOps [⟨0, exEntityA⟩, ⟨0, exEntityB⟩] (0 : ℚ) =
      some (cloneRuntimeEntity witnessOps exEntityB) := by
    rw [sampleEntityAt_eq, hub]
    simp
  have hmap : ((sampleAtRuntime witnessOps
      (setFrames [⟨0, [exEntityA], none⟩, ⟨0, [exEntityB], none⟩] emptyStore)
      0).entities.map (fun e => e.modelId)) = ["m1"] := by
    simp only [sampleAtRuntime]
    rw [hidx]
    simp only [List.filterMap_cons, List.filterMap_nil, h]
    simp [cloneRuntimeEntity, cloneEntity, exEntityB]
  refine ⟨hidx, hmap, ?_⟩
  intro heq
  have := congrArg (List.map (fun e : RuntimeEntityState ℚ => e.modelId)) heq
  rw [hmap] at this
  simp [cloneRuntimeEntity, cloneEntity, exEntityA] at this

/-- Every character produced by `digitChar` is a decimal digit. -/
theorem digitChar_mem (d : Nat) :
    digitChar d ∈ ['0', '1', '2', '3', '4', '5', '6', '7', '8', '9'] := by
  unfold digitChar
  split <;> simp

/-- An array index key never equals a field name containing a non-digit
character. -/
theorem natKey_ne (s : String) (c : Char) (hc : c ∈ s.data)
    (hcd : c ∉ ['0', '1', '2', '3', '4', '5', '6', '7', '8', '9']) (n : Nat) :
    natKey n ≠ s := by
  intro h
  have hdata : ((natDigits n).reverse.map digitChar) = s.data := congrArg String.data h
  rw [← hdata] at hc
  rcases List.mem_map.mp hc with ⟨d, _, hdc⟩
  exact hcd (hdc ▸ digitChar_mem d)

/-- Lookup misses when no key matches. -/
theorem lookup_eq_none_of_keys_ne {β : Type} (l : List (String × β)) (s : String)
    (h : ∀ p ∈ l, s ≠ p.1) : l.lookup s = none := by
  induction l with
  | nil => rfl
  | cons p rest ih =>
    obtain ⟨k, b⟩ := p
    have h1 : (s == k) = false :=
      beq_eq_false_iff_ne.mpr (h (k, b) (List.mem_cons_self _ _))
    have hstep : List.lookup s ((k, b) :: rest) = List.lookup s rest := by
      simp only [List.lookup, h1]
    rw [hstep]
    exact ih (fun q hq => h q (List.mem_cons_of_mem _ hq))

/-- Named (non-index) field accesses on a JS array read `undefined`. -/
theorem getField_fieldsOf_arr (elems : List (Jval α)) (s : String) (c : Char)
    (hc : c ∈ s.data)
    (hcd : c ∉ ['0', '1', '2', '3', '4', '5', '6', '7', '8', '9']) :
    getField (fieldsOf (Jval.arr elems)) s = Jval.undef := by
  unfold getField fieldsOf
  rw [lookup_eq_none_of_keys_ne]
  · rfl
  · intro p hp
    rcases List.mem_map.mp hp with ⟨q, _, rfl⟩
    exact fun hh => natKey_ne s c hc hcd q.1 hh.symm

/-- Success of an `Except` is existence of a value. -/
theorem isOkB_iff_exists {ε γ : Type} (x : Except ε γ) :
    isOkB x = true ↔ ∃ a, x = Except.ok a := by
  cases x <;> simp [isOkB]

/-- Reduction of monadic bind on a success. -/
theorem exceptBind_ok {ε β γ : Type} (a : β) (f : β → Except ε γ) :
    (Except.ok a >>= f) = f a := rfl

/-- Reduction of monadic bind on an error. -/
theorem exceptBind_error {ε β γ : Type} (e : ε) (f : β → Except ε γ) :
    ((Except.error e : Except ε β) >>= f) = Except.error e := rfl

/-- A message of the form `path ++ suffix` is path-qualified. -/
theorem err_prefix_of_append (path s msg : String) (h : path ++ s = msg) :
    path.data <+: msg.data := by
  rw [← h, String.data_append]
  exact List.prefix_append _ _

/-- Path qualification is preserved when the inner call extends the path. -/
theorem prefix_extend (path s msg : String) (h : (path ++ s).data <+: msg.data) :
    path.data <+: msg.data := by
  refine List.IsPrefix.trans ?_ h
  rw [String.data_append]
  exact List.prefix_append _ _

/-- `ensureRecord` succeeds exactly on record-like values. -/
theorem ensureRecord_isOkB (v : Jval α) (path : String) :
    isOkB (ensureRecord v path) = isRecordB v := by
  unfold ensureRecord
  split_ifs with h <;> simp [isOkB, h]

/-- `ensureRecord` errors are path-qualified. -/
theorem ensureRecord_err (v : Jval α) (path msg : String)
    (h : ensureRecord v path = Except.error msg) : path.data <+: msg.data := by
  unfold ensureRecord at h
  split_ifs at h
  exact err_prefix_of_append _ _ _ (Except.error.inj h)

/-- `ensureFiniteNumber` succeeds exactly on finite numbers. -/
theorem ensureFiniteNumber_isOkB (v : Jval α) (path : String) :
    isOkB (ensureFiniteNumber v path) = isFiniteNumberB v := by
  cases v <;> rfl

/-- `ensureFiniteNumber` errors are path-qualified. -/
theorem ensureFiniteNumber_err (v : Jval α) (path msg : String)
    (h : ensureFiniteNumber v path = Except.error msg) : path.data <+: msg.data := by
  cases v <;>
    first
    | exact Except.noConfusion h
    | exact err_prefix_of_append _ _ _ (Except.error.inj h)

/-- `ensureNonEmptyString` succeeds exactly on non-empty strings. -/
theorem ensureNonEmptyString_isOkB (v : Jval α) (path : String) :
    isOkB (ensureNonEmptyString v path) = isNonEmptyStringB v := by
  cases v
  case str s =>
    simp only [ensureNonEmptyString, isNonEmptyStringB]
    split_ifs with h <;> simp_all [isOkB]
  all_goals rfl

/-- `ensureNonEmptyString` errors are path-qualified. -/
theorem ensureNonEmptyString_err (v : Jval α) (path msg : String)
    (h : ensureNonEmptyString v path = Except.error msg) : path.data <+: msg.data := by
  cases v
  case str s =>
    simp only [ensureNonEmptyString] at h
    split_ifs at h
    exact err_prefix_of_append _ _ _ (Except.error.inj h)
  all_goals exact err_prefix_of_append _ _ _ (Except.error.inj h)

/-- `ensureString` succeeds exactly on strings. -/
theorem ensureString_isOkB (v : Jval α) (path : String) :
    isOkB (ensureString v path) = isStringB v := by
  cases v <;> rfl

/-- `ensureString` errors are path-qualified. -/
theorem ensureString_err (v : Jval α) (path msg : String)
    (h : ensureString v path = Except.error msg) : path.data <+: msg.data := by
  cases v <;>
    first
    | exact Except.noConfusion h
    | exact err_prefix_of_append _ _ _ (Except.error.inj h)

/-- `ensureEntityKind` succeeds exactly on the kind enum. -/
theorem ensureEntityKind_isOkB (v : Jval α) (path : String) :
    isOkB (ensureEntityKind v path) = isEntityKindB v := by
  cases v
  case str s =>
    simp only [ensureEntityKind, isEntityKindB]
    split_ifs with h1 h2 <;> simp_all [isOkB]
  all_goals rfl

/-- `ensureEntityKind` errors are path-qualified. -/
theorem ensureEntityKind_err (v : Jval α) (path msg : String)
    (h : ensureEntityKind v path = Except.error msg) : path.data <+: msg.data := by
  cases v
  case str s =>
    simp only [ensureEntityKind] at h
    split_ifs at h <;> first
      | exact Except.noConfusion h
      | exact err_prefix_of_append _ _ _ (Except.error.inj h)
  all_goals exact err_prefix_of_append _ _ _ (Except.error.inj h)

/-- `ensureDomain` succeeds exactly on the domain enum. -/
theorem ensureDomain_isOkB (v : Jval α) (path : String) :
    isOkB (ensureDomain v path) = isDomainB v := by
  cases v
  case str s =>
    simp only [ensureDomain, isDomainB]
    split_ifs with h1 h2 h3 h4 <;> simp_all [isOkB]
  all_goals rfl

/-- `ensureDomain` errors are path-qualified. -/
theorem ensureDomain_err (v : Jval α) (path msg : String)
    (h : ensureDomain v path = Except.error msg) : path.data <+: msg.data := by
  cases v
  case str s =>
    simp only [ensureDomain] at h
    split_ifs at h <;> first
      | exact Except.noConfusion h
      | exact err_prefix_of_append _ _ _ (Except.error.inj h)
  all_goals exact err_prefix_of_append _ _ _ (Except.error.inj h)

/-- `ensureCombatEventType` succeeds exactly on the event type enum. -/
theorem ensureCombatEventType_isOkB (v : Jval α) (path : String) :
    isOkB (ensureCombatEventType v path) = isEventTypeB v := by
  cases v
  case str s =>
    simp only [ensureCombatEventType, isEventTypeB]
    split_ifs with h1 h2 h3 <;> simp_all [isOkB]
  all_goals rfl

/-- `ensureCombatEventType` errors are path-qualified. -/
theorem ensureCombatEventType_err (v : Jval α) (path msg : String)
    (h : ensureCombatEventType v path = Except.error msg) : path.data <+: msg.data := by
  cases v
  case str s =>
    simp only [ensureCombatEventType] at h
    split_ifs at h <;> first
      | exact Except.noConfusion h
      | exact err_prefix_of_append _ _ _ (Except.error.inj h)
  all_goals exact err_prefix_of_append _ _ _ (Except.error.inj h)

/-- Success of a bind whose continuation's success does not depend on the
bound value. -/
theorem isOkB_bind_const {ε β γ : Type} (x : Except ε β) (f : β → Except ε γ) (b : Bool)
    (hf : ∀ a, isOkB (f a) = b) :
    isOkB (x >>= f) = (isOkB x && b) := by
  cases x with
  | error e => rfl
  | ok a =>
    rw [exceptBind_ok, hf a]
    simp [isOkB]

/-- Wrapping a success in `some` keeps the success flag. -/
theorem isOkB_map_some {ε β : Type} (x : Except ε β) :
    isOkB (Except.map some x) = isOkB x := by
  cases x <;> rfl

/-- An erroring bind errors in its first or its second stage. -/
theorem err_of_bind {ε β γ : Type} (x : Except ε β) (f : β → Except ε γ) (msg : ε)
    (h : (x >>= f) = Except.error msg) :
    x = Except.error msg ∨ ∃ a, x = Except.ok a ∧ f a = Except.error msg := by
  cases x with
  | error e =>
    rw [exceptBind_error] at h
    exact Or.inl (by rw [Except.error.inj h])
  | ok a =>
    rw [exceptBind_ok] at h
    exact Or.inr ⟨a, rfl, h⟩

/-- `ensureTuple3` succeeds exactly on 3-tuples of finite numbers. -/
theorem ensureTuple3_isOkB (v : Jval α) (path : String) :
    isOkB (ensureTuple3 v path) = isTuple3B v := by
  cases v
  case arr l =>
    rcases l with _ | ⟨a, _ | ⟨b, _ | ⟨c, _ | ⟨d, rest⟩⟩⟩⟩
    · rfl
    · rfl
    · rfl
    · simp only [ensureTuple3, isTuple3B]
      have h2 : ∀ x : α, isOkB (ensureFiniteNumber b (path ++ "[1]") >>= fun y =>
          ensureFiniteNumber c (path ++ "[2]") >>= fun z =>
          pure (x, y, z)) = (isFiniteNumberB b && isFiniteNumberB c) := by
        intro x
        rw [isOkB_bind_const _ _ (isFiniteNumberB c), ensureFiniteNumber_isOkB]
        intro y
        rw [isOkB_bind_const _ _ true, ensureFiniteNumber_isOkB, Bool.and_true]
        intro z
        rfl
      rw [isOkB_bind_const _ _ _ h2, ensureFiniteNumber_isOkB]
      simp
    · have hL : ensureTuple3 (Jval.arr (a :: b :: c :: d :: rest)) path =
          Except.error (path ++ " must be a 3-tuple") := rfl
      rw [hL]
      have hlen : ¬ (rest.length + 1 + 1 + 1 + 1 = 3) := by omega
      simp [isTuple3B, isOkB, hlen]
  all_goals rfl

/-- `ensureTuple3` errors are path-qualified. -/
theorem ensureTuple3_err (v : Jval α) (path msg : String)
    (h : ensureTuple3 v path = Except.error msg) : path.data <+: msg.data := by
  cases v
  case arr l =>
    rcases l with _ | ⟨a, _ | ⟨b, _ | ⟨c, _ | ⟨d, rest⟩⟩⟩⟩
    · exact err_prefix_of_append _ _ _ (Except.error.inj h)
    · exact err_prefix_of_append _ _ _ (Except.error.inj h)
    · exact err_prefix_of_append _ _ _ (Except.error.inj h)
    · simp only [ensureTuple3] at h
      rcases err_of_bind _ _ _ h with h1 | ⟨x, _, h1⟩
      · exact prefix_extend _ _ _ (ensureFiniteNumber_err _ _ _ h1)
      · rcases err_of_bind _ _ _ h1 with h2 | ⟨y, _, h2⟩
        · exact prefix_extend _ _ _ (ensureFiniteNumber_err _ _ _ h2)
        · rcases err_of_bind _ _ _ h2 with h3 | ⟨z, _, h3⟩
          · exact prefix_extend _ _ _ (ensureFiniteNumber_err _ _ _ h3)
          · exact Except.noConfusion h3
    · exact err_prefix_of_append _ _ _ (Except.error.inj h)
  all_goals exact err_prefix_of_append _ _ _ (Except.error.inj h)

/-- `ensureTuple4` succeeds exactly on 4-tuples of finite numbers. -/
theorem ensureTuple4_isOkB (v : Jval α) (path : String) :
    isOkB (ensureTuple4 v path) = isTuple4B v := by
  cases v
  case arr l =>
    rcases l with _ | ⟨a, _ | ⟨b, _ | ⟨c, _ | ⟨d, _ | ⟨e, rest⟩⟩⟩⟩⟩
    · rfl
    · rfl
    · rfl
    · rfl
    · simp only [ensureTuple4, isTuple4B]
      have h2 : ∀ x : α, isOkB (ensureFiniteNumber b (path ++ "[1]") >>= fun y =>
          ensureFiniteNumber c (path ++ "[2]") >>= fun z =>
          ensureFiniteNumber d (path ++ "[3]") >>= fun w =>
          pure (x, y, z, w)) =
          (isFiniteNumberB b && (isFiniteNumberB c && isFiniteNumberB d)) := by
        intro x
        rw [isOkB_bind_const _ _ (isFiniteNumberB c && isFiniteNumberB d),
          ensureFiniteNumber_isOkB]
        intro y
        rw [isOkB_bind_const _ _ (isFiniteNumberB d), ensureFiniteNumber_isOkB]
        intro z
        rw [isOkB_bind_const _ _ true, ensureFiniteNumber_isOkB, Bool.and_true]
        intro w
        rfl
      rw [isOkB_bind_const _ _ _ h2, ensureFiniteNumber_isOkB]
      simp
    · have hL : ensureTuple4 (Jval.arr (a :: b :: c :: d :: e :: rest)) path =
          Except.error (path ++ " must be a 4-tuple") := rfl
      rw [hL]
      have hlen : ¬ (rest.length + 1 + 1 + 1 + 1 + 1 = 4) := by omega
      simp [isTuple4B, isOkB, hlen]
  all_goals rfl

/-- `ensureTuple4` errors are path-qualified. -/
theorem ensureTuple4_err (v : Jval α) (path msg : String)
    (h : ensureTuple4 v path = Except.error msg) : path.data <+: msg.data := by
  cases v
  case arr l =>
    rcases l with _ | ⟨a, _ | ⟨b, _ | ⟨c, _ | ⟨d, _ | ⟨e, rest⟩⟩⟩⟩⟩
    · exact err_prefix_of_append _ _ _ (Except.error.inj h)
    · exact err_prefix_of_append _ _ _ (Except.error.inj h)
    · exact err_prefix_of_append _ _ _ (Except.error.inj h)
    · exact err_prefix_of_append _ _ _ (Except.error.inj h)
    · simp only [ensureTuple4] at h
      rcases err_of_bind _ _ _ h with h1 | ⟨x, _, h1⟩
      · exact prefix_extend _ _ _ (ensureFiniteNumber_err _ _ _ h1)
      · rcases err_of_bind _ _ _ h1 with h2 | ⟨y, _, h2⟩
        · exact prefix_extend _ _ _ (ensureFiniteNumber_err _ _ _ h2)
        · rcases err_of_bind _ _ _ h2 with h3 | ⟨z, _, h3⟩
          · exact prefix_extend _ _ _ (ensureFiniteNumber_err _ _ _ h3)
          · rcases err_of_bind _ _ _ h3 with h4 | ⟨w, _, h4⟩
            · exact prefix_extend _ _ _ (ensureFiniteNumber_err _ _ _ h4)
            · exact Except.noConfusion h4
    · exact err_prefix_of_append _ _ _ (Except.error.inj h)
  all_goals exact err_prefix_of_append _ _ _ (Except.error.inj h)

/-- `parsePose` succeeds exactly on conforming poses (a record with the two
tuple fields; a JS array never supplies the named fields). -/
theorem parsePose_isOkB (v : Jval α) (path : String) :
    isOkB (parsePose v path) = conformsPose v := by
  have harr : ∀ elems : List (Jval α), getField (fieldsOf (Jval.arr elems))
      "positionLlaDegM" = Jval.undef := fun elems =>
    getField_fieldsOf_arr elems _ 'p' (by decide) (by decide)
  cases v
  case obj fields =>
    simp only [parsePose, ensureRecord, isRecordB, fieldsOf, if_true, exceptBind_ok,
      conformsPose]
    rw [isOkB_bind_const _ _ (isTuple4B (getField fields "orientationBodyToNedQuat")),
      ensureTuple3_isOkB]
    intro pos
    rw [isOkB_bind_const _ _ true, ensureTuple4_isOkB, Bool.and_true]
    intro orient
    rfl
  case arr elems =>
    simp only [parsePose, ensureRecord, isRecordB, if_true, exceptBind_ok, conformsPose,
      harr elems]
    rw [isOkB_bind_const _ _ (isTuple4B (getField (fieldsOf (Jval.arr elems))
      "orientationBodyToNedQuat"))]
    · rfl
    · intro pos
      rw [isOkB_bind_const _ _ true, ensureTuple4_isOkB, Bool.and_true]
      intro orient
      rfl
  all_goals rfl

/-- `parsePose` errors are path-qualified. -/
theorem parsePose_err (v : Jval α) (path msg : String)
    (h : parsePose v path = Except.error msg) : path.data <+: msg.data := by
  cases v
  case obj fields =>
    simp only [parsePose, ensureRecord, isRecordB, if_true, exceptBind_ok] at h
    rcases err_of_bind _ _ _ h with h1 | ⟨pos, _, h1⟩
    · exact prefix_extend _ _ _ (ensureTuple3_err _ _ _ h1)
    · rcases err_of_bind _ _ _ h1 with h2 | ⟨orient, _, h2⟩
      · exact prefix_extend _ _ _ (ensureTuple4_err _ _ _ h2)
      · exact Except.noConfusion h2
  case arr elems =>
    simp only [parsePose, ensureRecord, isRecordB, if_true, exceptBind_ok] at h
    rcases err_of_bind _ _ _ h with h1 | ⟨pos, _, h1⟩
    · exact prefix_extend _ _ _ (ensureTuple3_err _ _ _ h1)
    · rcases err_of_bind _ _ _ h1 with h2 | ⟨orient, _, h2⟩
      · exact prefix_extend _ _ _ (ensureTuple4_err _ _ _ h2)
      · exact Except.noConfusion h2
  all_goals exact err_prefix_of_append _ _ _ (Except.error.inj h)

/-- Success of the fail-fast traversal is success of every element. -/
theorem mapOrError_isOkB {β γ : Type} (f : β → Except String γ) (l : List β) :
    isOkB (mapOrError f l) = l.all (fun x => isOkB (f x)) := by
  induction l with
  | nil => rfl
  | cons x xs ih =>
    simp only [mapOrError, List.all_cons]
    rw [isOkB_bind_const _ _ (xs.all fun z => isOkB (f z))]
    intro y
    rw [isOkB_bind_const _ _ true, Bool.and_true, ih]
    intro ys
    rfl

/-- An error of the fail-fast traversal is an error of some element. -/
theorem mapOrError_err {β γ : Type} (f : β → Except String γ) (l : List β) (msg : String)
    (h : mapOrError f l = Except.error msg) :
    ∃ x ∈ l, f x = Except.error msg := by
  induction l with
  | nil => exact Except.noConfusion h
  | cons x xs ih =>
    simp only [mapOrError] at h
    rcases err_of_bind _ _ _ h with h1 | ⟨y, _, h1⟩
    · exact ⟨x, List.mem_cons_self _ _, h1⟩
    · rcases err_of_bind _ _ _ h1 with h2 | ⟨ys, _, h2⟩
      · rcases ih h2 with ⟨z, hz, hz2⟩
        exact ⟨z, List.mem_cons_of_mem _ hz, hz2⟩
      · exact Except.noConfusion h2

/-- A metadata entry parses exactly when its value is a metadata value. -/
theorem parseMetaEntry_isOkB (path : String) (kv : String × Jval α) :
    isOkB (parseMetaEntry path kv) = isMetaValueB kv.2 := by
  obtain ⟨k, v⟩ := kv
  cases v <;> rfl

/-- Metadata entry errors are path-qualified. -/
theorem parseMetaEntry_err (path : String) (kv : String × Jval α) (msg : String)
    (h : parseMetaEntry path kv = Except.error msg) : path.data <+: msg.data := by
  obtain ⟨k, v⟩ := kv
  have hmsg : ∀ s : String, path ++ "." ++ k ++ s = path ++ ("." ++ (k ++ s)) := by
    intro s
    rw [String.append_assoc, String.append_assoc]
  cases v <;> simp only [parseMetaEntry] at h <;>
    first
    | exact Except.noConfusion h
    | exact err_prefix_of_append _ _ _ ((hmsg _).symm.trans (Except.error.inj h))

/-- Boolean "all" commutes with `map`. -/
theorem all_map_own {β γ : Type} (l : List β) (f : β → γ) (p : γ → Bool) :
    (l.map f).all p = l.all (fun x => p (f x)) := by
  induction l with
  | nil => rfl
  | cons x xs ih => simp only [List.map_cons, List.all_cons, ih]

/-- Boolean "all" over an enumeration ignores the indices. -/
theorem all_enumFrom_snd {β : Type} (l : List β) (n : Nat) (q : β → Bool) :
    (List.enumFrom n l).all (fun p => q p.2) = l.all q := by
  induction l generalizing n with
  | nil => rfl
  | cons x xs ih => simp only [List.enumFrom, List.all_cons, ih]

/-- Boolean "all" over enumerated pairs ignores the indices. -/
theorem all_enum_snd {β : Type} (l : List β) (q : β → Bool) :
    l.enum.all (fun p => q p.2) = l.all q :=
  all_enumFrom_snd l 0 q

/-- `parseMetadata` succeeds exactly on the relaxed metadata shape: a record
of metadata values, where a JS array counts as a record of its index-keyed
entries. -/
theorem parseMetadata_isOkB (v : Jval α) (path : String) :
    isOkB (parseMetadata v path) = conformsMetadataRelaxed v := by
  cases v
  case obj fields =>
    simp only [parseMetadata, ensureRecord, isRecordB, if_true, exceptBind_ok, fieldsOf,
      conformsMetadataRelaxed]
    rw [mapOrError_isOkB]
    simp only [parseMetaEntry_isOkB]
  case arr elems =>
    simp only [parseMetadata, ensureRecord, isRecordB, if_true, exceptBind_ok, fieldsOf,
      conformsMetadataRelaxed]
    rw [mapOrError_isOkB, all_map_own]
    have hfun : (fun p : Nat × Jval α => isOkB (parseMetaEntry path (natKey p.1, p.2))) =
        (fun p : Nat × Jval α => isMetaValueB p.2) := by
      funext p
      exact parseMetaEntry_isOkB path (natKey p.1, p.2)
    rw [hfun, all_enum_snd]
  all_goals rfl

/-- `parseMetadata` errors are path-qualified. -/
theorem parseMetadata_err (v : Jval α) (path msg : String)
    (h : parseMetadata v path = Except.error msg) : path.data <+: msg.data := by
  cases v
  case obj fields =>
    simp only [parseMetadata, ensureRecord, isRecordB, if_true, exceptBind_ok] at h
    rcases mapOrError_err _ _ _ h with ⟨kv, _, hkv⟩
    exact parseMetaEntry_err _ _ _ hkv
  case arr elems =>
    simp only [parseMetadata, ensureRecord, isRecordB, if_true, exceptBind_ok] at h
    rcases mapOrError_err _ _ _ h with ⟨kv, _, hkv⟩
    exact parseMetaEntry_err _ _ _ hkv
  all_goals exact err_prefix_of_append _ _ _ (Except.error.inj h)

/-- Mapping `some` over a result preserves errors. -/
theorem map_some_err {β : Type} (x : Except String β) (msg : String)
    (h : Except.map some x = Except.error msg) : x = Except.error msg := by
  cases x with
  | ok a => exact Except.noConfusion h
  | error e => exact congrArg Except.error (Except.error.inj h)

/-- An optional field parses exactly when absent or of the required shape. -/
theorem parseOptField_isOkB {γ : Type} (v : Jval α) (f : Jval α → Except String γ)
    (p : Jval α → Bool) (hf : ∀ w, isOkB (f w) = p w) :
    isOkB (parseOptField v f) = optFieldB p v := by
  unfold parseOptField optFieldB
  split_ifs with hv
  · rfl
  · rw [isOkB_map_some, hf]

/-- Optional-field errors inherit the inner parser's path qualification. -/
theorem parseOptField_err {γ : Type} (v : Jval α) (f : Jval α → Except String γ)
    (msg pfx : String) (hf : ∀ w m, f w = Except.error m → pfx.data <+: m.data)
    (h : parseOptField v f = Except.error msg) : pfx.data <+: msg.data := by
  unfold parseOptField at h
  split_ifs at h
  exact hf _ _ (map_some_err _ _ h)

/-- `parseEntity` succeeds exactly on entities conforming to the relaxed
schema (metadata may be an index-keyed array). -/
theorem parseEntity_isOkB (v : Jval α) (path : String) :
    isOkB (parseEntity v path) = conformsEntityWith conformsMetadataRelaxed v := by
  cases v
  case obj fields =>
    simp only [parseEntity, ensureRecord, isRecordB, if_true, exceptBind_ok, fieldsOf,
      conformsEntityWith]
    have e1 := parseOptField_isOkB (getField fields "velocityEcef")
      (fun w => ensureTuple3 w (path ++ ".velocityEcef")) isTuple3B
      (fun w => ensureTuple3_isOkB w _)
    have e2 := parseOptField_isOkB (getField fields "metadata")
      (fun w => parseMetadata w (path ++ ".metadata")) conformsMetadataRelaxed
      (fun w => parseMetadata_isOkB w _)
    have e3 := ensureNonEmptyString_isOkB (getField fields "id") (path ++ ".id")
    have e4 := ensureEntityKind_isOkB (getField fields "kind") (path ++ ".kind")
    have e5 := ensureDomain_isOkB (getField fields "domain") (path ++ ".domain")
    have e6 := ensureNonEmptyString_isOkB (getField fields "modelId") (path ++ ".modelId")
    have e7 := parsePose_isOkB (getField fields "pose") (path ++ ".pose")
    cases h1 : parseOptField (getField fields "velocityEcef")
        (fun w => ensureTuple3 w (path ++ ".velocityEcef")) with
    | error m =>
      rw [h1] at e1
      simp only [isOkB] at e1
      rw [exceptBind_error]
      simp [isOkB, ← e1]
    | ok velocity =>
      rw [h1] at e1
      simp only [isOkB] at e1
      rw [exceptBind_ok]
      cases h2 : parseOptField (getField fields "metadata")
          (fun w => parseMetadata w (path ++ ".metadata")) with
      | error m =>
        rw [h2] at e2
        simp only [isOkB] at e2
        rw [exceptBind_error]
        simp [isOkB, ← e2]
      | ok metadata =>
        rw [h2] at e2
        simp only [isOkB] at e2
        rw [exceptBind_ok]
        cases h3 : ensureNonEmptyString (getField fields "id") (path ++ ".id") with
        | error m =>
          rw [h3] at e3
          simp only [isOkB] at e3
          rw [exceptBind_error]
          simp [isOkB, ← e3]
        | ok id =>
          rw [h3] at e3
          simp only [isOkB] at e3
          rw [exceptBind_ok]
          cases h4 : ensureEntityKind (getField fields "kind") (path ++ ".kind") with
          | error m =>
            rw [h4] at e4
            simp only [isOkB] at e4
            rw [exceptBind_error]
            simp [isOkB, ← e4]
          | ok kind =>
            rw [h4] at e4
            simp only [isOkB] at e4
            rw [exceptBind_ok]
            cases h5 : ensureDomain (getField fields "domain") (path ++ ".domain") with
            | error m =>
              rw [h5] at e5
              simp only [isOkB] at e5
              rw [exceptBind_error]
              simp [isOkB, ← e5]
            | ok domain =>
              rw [h5] at e5
              simp only [isOkB] at e5
              rw [exceptBind_ok]
              cases h6 : ensureNonEmptyString (getField fields "modelId")
                  (path ++ ".modelId") with
              | error m =>
                rw [h6] at e6
                simp only [isOkB] at e6
                rw [exceptBind_error]
                simp [isOkB, ← e6]
              | ok modelId =>
                rw [h6] at e6
                simp only [isOkB] at e6
                rw [exceptBind_ok]
                cases h7 : parsePose (getField fields "pose") (path ++ ".pose") with
                | error m =>
                  rw [h7] at e7
                  simp only [isOkB] at e7
                  rw [exceptBind_error]
                  simp [isOkB, ← e7]
                | ok pose =>
                  rw [h7] at e7
                  simp only [isOkB] at e7
                  rw [exceptBind_ok]
                  simp [isOkB, pure, Except.pure, ← e1, ← e2, ← e3, ← e4, ← e5, ← e6, ← e7]
  case arr elems =>
    have hvel : getField (fieldsOf (Jval.arr elems)) "velocityEcef" = Jval.undef :=
      getField_fieldsOf_arr elems _ 'v' (by decide) (by decide)
    have hmeta : getField (fieldsOf (Jval.arr elems)) "metadata" = Jval.undef :=
      getField_fieldsOf_arr elems _ 'm' (by decide) (by decide)
    have hid : getField (fieldsOf (Jval.arr elems)) "id" = Jval.undef :=
      getField_fieldsOf_arr elems _ 'i' (by decide) (by decide)
    simp only [parseEntity, ensureRecord, isRecordB, if_true, exceptBind_ok,
      conformsEntityWith, hvel, hmeta, hid]
    rw [show parseOptField (Jval.undef : Jval α)
        (fun w => ensureTuple3 w (path ++ ".velocityEcef")) = Except.ok none from rfl,
      exceptBind_ok]
    rw [show parseOptField (Jval.undef : Jval α)
        (fun w => parseMetadata w (path ++ ".metadata")) = Except.ok none from rfl,
      exceptBind_ok]
    rw [show ensureNonEmptyString (Jval.undef : Jval α) (path ++ ".id") =
        Except.error ((path ++ ".id") ++ " must be a non-empty string") from rfl,
      exceptBind_error]
    rfl
  all_goals rfl

/-- `parseEntity` errors are path-qualified. -/
theorem parseEntity_err (v : Jval α) (path msg : String)
    (h : parseEntity v path = Except.error msg) : path.data <+: msg.data := by
  cases v
  case obj fields =>
    simp only [parseEntity, ensureRecord, isRecordB, if_true, exceptBind_ok, fieldsOf] at h
    rcases err_of_bind _ _ _ h with h1 | ⟨velocity, _, h1⟩
    · exact parseOptField_err _ _ _ _
        (fun w m hm => prefix_extend _ _ _ (ensureTuple3_err w _ m hm)) h1
    · rcases err_of_bind _ _ _ h1 with h2 | ⟨metadata, _, h2⟩
      · exact parseOptField_err _ _ _ _
          (fun w m hm => prefix_extend _ _ _ (parseMetadata_err w _ m hm)) h2
      · rcases err_of_bind _ _ _ h2 with h3 | ⟨id, _, h3⟩
        · exact prefix_extend _ _ _ (ensureNonEmptyString_err _ _ _ h3)
        · rcases err_of_bind _ _ _ h3 with h4 | ⟨kind, _, h4⟩
          · exact prefix_extend _ _ _ (ensureEntityKind_err _ _ _ h4)
          · rcases err_of_bind _ _ _ h4 with h5 | ⟨domain, _, h5⟩
            · exact prefix_extend _ _ _ (ensureDomain_err _ _ _ h5)
            · rcases err_of_bind _ _ _ h5 with h6 | ⟨modelId, _, h6⟩
              · exact prefix_extend _ _ _ (ensureNonEmptyString_err _ _ _ h6)
              · rcases err_of_bind _ _ _ h6 with h7 | ⟨pose, _, h7⟩
                · exact prefix_extend _ _ _ (parsePose_err _ _ _ h7)
                · exact Except.noConfusion h7
  case arr elems =>
    simp only [parseEntity, ensureRecord, isRecordB, if_true, exceptBind_ok, fieldsOf] at h
    rcases err_of_bind _ _ _ h with h1 | ⟨velocity, _, h1⟩
    · exact parseOptField_err _ _ _ _
        (fun w m hm => prefix_extend _ _ _ (ensureTuple3_err w _ m hm)) h1
    · rcases err_of_bind _ _ _ h1 with h2 | ⟨metadata, _, h2⟩
      · exact parseOptField_err _ _ _ _
          (fun w m hm => prefix_extend _ _ _ (parseMetadata_err w _ m hm)) h2
      · rcases err_of_bind _ _ _ h2 with h3 | ⟨id, _, h3⟩
        · exact prefix_extend _ _ _ (ensureNonEmptyString_err _ _ _ h3)
        · rcases err_of_bind _ _ _ h3 with h4 | ⟨kind, _, h4⟩
          · exact prefix_extend _ _ _ (ensureEntityKind_err _ _ _ h4)
          · rcases err_of_bind _ _ _ h4 with h5 | ⟨domain, _, h5⟩
            · exact prefix_extend _ _ _ (ensureDomain_err _ _ _ h5)
            · rcases err_of_bind _ _ _ h5 with h6 | ⟨modelId, _, h6⟩
              · exact prefix_extend _ _ _ (ensureNonEmptyString_err _ _ _ h6)
              · rcases err_of_bind _ _ _ h6 with h7 | ⟨pose, _, h7⟩
                · exact prefix_extend _ _ _ (parsePose_err _ _ _ h7)
                · exact Except.noConfusion h7
  all_goals exact err_prefix_of_append _ _ _ (Except.error.inj h)

/-- `parseEvent` succeeds exactly on conforming events. -/
theorem parseEvent_isOkB (v : Jval α) (path : String) :
    isOkB (parseEvent v path) = conformsEvent v := by
  cases v
  case obj fields =>
    simp only [parseEvent, ensureRecord, isRecordB, if_true, exceptBind_ok, fieldsOf,
      conformsEvent]
    have e1 := ensureNonEmptyString_isOkB (getField fields "id") (path ++ ".id")
    have e2 := ensureCombatEventType_isOkB (getField fields "type") (path ++ ".type")
    have e3 := parseOptField_isOkB (getField fields "sourceId")
      (fun w => ensureString w (path ++ ".sourceId")) isStringB
      (fun w => ensureString_isOkB w _)
    have e4 := parseOptField_isOkB (getField fields "targetId")
      (fun w => ensureString w (path ++ ".targetId")) isStringB
      (fun w => ensureString_isOkB w _)
    have e5 := ensureTuple3_isOkB (getField fields "positionLlaDegM")
      (path ++ ".positionLlaDegM")
    have e6 := ensureFiniteNumber_isOkB (getField fields "t") (path ++ ".t")
    cases h1 : ensureNonEmptyString (getField fields "id") (path ++ ".id") with
    | error m =>
      rw [h1] at e1
      simp only [isOkB] at e1
      rw [exceptBind_error]
      simp [isOkB, ← e1]
    | ok id =>
      rw [h1] at e1
      simp only [isOkB] at e1
      rw [exceptBind_ok]
      cases h2 : ensureCombatEventType (getField fields "type") (path ++ ".type") with
      | error m =>
        rw [h2] at e2
        simp only [isOkB] at e2
        rw [exceptBind_error]
        simp [isOkB, ← e2]
      | ok type =>
        rw [h2] at e2
        simp only [isOkB] at e2
        rw [exceptBind_ok]
        cases h3 : parseOptField (getField fields "sourceId")
            (fun w => ensureString w (path ++ ".sourceId")) with
        | error m =>
          rw [h3] at e3
          simp only [isOkB] at e3
          rw [exceptBind_error]
          simp [isOkB, ← e3]
        | ok sourceId =>
          rw [h3] at e3
          simp only [isOkB] at e3
          rw [exceptBind_ok]
          cases h4 : parseOptField (getField fields "targetId")
              (fun w => ensureString w (path ++ ".targetId")) with
          | error m =>
            rw [h4] at e4
            simp only [isOkB] at e4
            rw [exceptBind_error]
            simp [isOkB, ← e4]
          | ok targetId =>
            rw [h4] at e4
            simp only [isOkB] at e4
            rw [exceptBind_ok]
            cases h5 : ensureTuple3 (getField fields "positionLlaDegM")
                (path ++ ".positionLlaDegM") with
            | error m =>
              rw [h5] at e5
              simp only [isOkB] at e5
              rw [exceptBind_error]
              simp [isOkB, ← e5]
            | ok pos =>
              rw [h5] at e5
              simp only [isOkB] at e5
              rw [exceptBind_ok]
              cases h6 : ensureFiniteNumber (getField fields "t") (path ++ ".t") with
              | error m =>
                rw [h6] at e6
                simp only [isOkB] at e6
                rw [exceptBind_error]
                simp [isOkB, ← e6]
              | ok t =>
                rw [h6] at e6
                simp only [isOkB] at e6
                rw [exceptBind_ok]
                simp [isOkB, pure, Except.pure, ← e1, ← e2, ← e3, ← e4, ← e5, ← e6]
  case arr elems =>
    have hid : getField (fieldsOf (Jval.arr elems)) "id" = Jval.undef :=
      getField_fieldsOf_arr elems _ 'i' (by decide) (by decide)
    simp only [parseEvent, ensureRecord, isRecordB, if_true, exceptBind_ok,
      conformsEvent, hid]
    rw [show ensureNonEmptyString (Jval.undef : Jval α) (path ++ ".id") =
        Except.error ((path ++ ".id") ++ " must be a non-empty string") from rfl,
      exceptBind_error]
    rfl
  all_goals rfl

/-- `parseEvent` errors are path-qualified. -/
theorem parseEvent_err (v : Jval α) (path msg : String)
    (h : parseEvent v path = Except.error msg) : path.data <+: msg.data := by
  cases v
  case obj fields =>
    simp only [parseEvent, ensureRecord, isRecordB, if_true, exceptBind_ok, fieldsOf] at h
    rcases err_of_bind _ _ _ h with h1 | ⟨id, _, h1⟩
    · exact prefix_extend _ _ _ (ensureNonEmptyString_err _ _ _ h1)
    · rcases err_of_bind _ _ _ h1 with h2 | ⟨type, _, h2⟩
      · exact prefix_extend _ _ _ (ensureCombatEventType_err _ _ _ h2)
      · rcases err_of_bind _ _ _ h2 with h3 | ⟨sourceId, _, h3⟩
        · exact parseOptField_err _ _ _ _
            (fun w m hm => prefix_extend _ _ _ (ensureString_err w _ m hm)) h3
        · rcases err_of_bind _ _ _ h3 with h4 | ⟨targetId, _, h4⟩
          · exact parseOptField_err _ _ _ _
              (fun w m hm => prefix_extend _ _ _ (ensureString_err w _ m hm)) h4
          · rcases err_of_bind _ _ _ h4 with h5 | ⟨pos, _, h5⟩
            · exact prefix_extend _ _ _ (ensureTuple3_err _ _ _ h5)
            · rcases err_of_bind _ _ _ h5 with h6 | ⟨t, _, h6⟩
              · exact prefix_extend _ _ _ (ensureFiniteNumber_err _ _ _ h6)
              · exact Except.noConfusion h6
  case arr elems =>
    simp only [parseEvent, ensureRecord, isRecordB, if_true, exceptBind_ok, fieldsOf] at h
    rcases err_of_bind _ _ _ h with h1 | ⟨id, _, h1⟩
    · exact prefix_extend _ _ _ (ensureNonEmptyString_err _ _ _ h1)
    · rcases err_of_bind _ _ _ h1 with h2 | ⟨type, _, h2⟩
      · exact prefix_extend _ _ _ (ensureCombatEventType_err _ _ _ h2)
      · rcases err_of_bind _ _ _ h2 with h3 | ⟨sourceId, _, h3⟩
        · exact parseOptField_err _ _ _ _
            (fun w m hm => prefix_extend _ _ _ (ensureString_err w _ m hm)) h3
        · rcases err_of_bind _ _ _ h3 with h4 | ⟨targetId, _, h4⟩
          · exact parseOptField_err _ _ _ _
              (fun w m hm => prefix_extend _ _ _ (ensureString_err w _ m hm)) h4
          · rcases err_of_bind _ _ _ h4 with h5 | ⟨pos, _, h5⟩
            · exact prefix_extend _ _ _ (ensureTuple3_err _ _ _ h5)
            · rcases err_of_bind _ _ _ h5 with h6 | ⟨t, _, h6⟩
              · exact prefix_extend _ _ _ (ensureFiniteNumber_err _ _ _ h6)
              · exact Except.noConfusion h6
  all_goals exact err_prefix_of_append _ _ _ (Except.error.inj h)

/-- A string prefix survives appending on the right. -/
theorem prefix_append_left (a b : String) : a.data <+: (a ++ b).data := by
  rw [String.data_append]
  exact List.prefix_append _ _

/-- Mapping a function over a result preserves errors. -/
theorem map_err {β γ : Type} (g : β → γ) (x : Except String β) (msg : String)
    (h : (g <$> x) = Except.error msg) : x = Except.error msg := by
  cases x with
  | ok a => exact Except.noConfusion h
  | error e => exact congrArg Except.error (Except.error.inj h)

/-- `parseFrameMessage` succeeds exactly on the relaxed wire schema. -/
theorem parseFrameMessage_isOkB (v : Jval α) :
    isOkB (parseFrameMessage v) = conformsFrameMessageRelaxed v := by
  have hEnt : ∀ es : List (Jval α), isOkB (mapOrError (fun p =>
      parseEntity p.2 ("frame.entities[" ++ natKey p.1 ++ "]")) es.enum) =
      es.all (conformsEntityWith conformsMetadataRelaxed) := by
    intro es
    rw [mapOrError_isOkB]
    have hfun : (fun p : Nat × Jval α =>
        isOkB (parseEntity p.2 ("frame.entities[" ++ natKey p.1 ++ "]"))) =
        (fun p : Nat × Jval α => conformsEntityWith conformsMetadataRelaxed p.2) := by
      funext p
      exact parseEntity_isOkB p.2 _
    rw [hfun, all_enum_snd]
  have hEvt : ∀ es : List (Jval α), isOkB (mapOrError (fun p =>
      parseEvent p.2 ("frame.events[" ++ natKey p.1 ++ "]")) es.enum) =
      es.all conformsEvent := by
    intro es
    rw [mapOrError_isOkB]
    have hfun : (fun p : Nat × Jval α =>
        isOkB (parseEvent p.2 ("frame.events[" ++ natKey p.1 ++ "]"))) =
        (fun p : Nat × Jval α => conformsEvent p.2) := by
      funext p
      exact parseEvent_isOkB p.2 _
    rw [hfun, all_enum_snd]
  cases v
  case obj fields =>
    simp only [parseFrameMessage, conformsFrameMessageRelaxed, conformsFrameWith,
      ensureRecord, isRecordB, if_true, exceptBind_ok, fieldsOf]
    cases hent : getField fields "entities" with
    | arr es =>
      dsimp only
      have hT := ensureFiniteNumber_isOkB (getField fields "t") "frame.t"
      cases hevt : getField fields "events" with
      | undef =>
        dsimp only
        cases hE : mapOrError (fun p =>
            parseEntity p.2 ("frame.entities[" ++ natKey p.1 ++ "]")) es.enum with
        | error m =>
          have he := hEnt es
          rw [hE] at he
          simp only [isOkB] at he
          simp [exceptBind_error, exceptBind_ok, isOkB, ← he]
        | ok entities =>
          have he := hEnt es
          rw [hE] at he
          simp only [isOkB] at he
          cases hTv : ensureFiniteNumber (getField fields "t") "frame.t" with
          | error m =>
            rw [hTv] at hT
            simp only [isOkB] at hT
            simp [exceptBind_error, exceptBind_ok, isOkB, ← hT, ← he]
          | ok t =>
            rw [hTv] at hT
            simp only [isOkB] at hT
            simp [exceptBind_ok, isOkB, pure, Except.pure, ← hT, ← he]
      | arr es2 =>
        dsimp only
        cases hE : mapOrError (fun p =>
            parseEntity p.2 ("frame.entities[" ++ natKey p.1 ++ "]")) es.enum with
        | error m =>
          have he := hEnt es
          rw [hE] at he
          simp only [isOkB] at he
          simp [exceptBind_error, exceptBind_ok, isOkB, ← he]
        | ok entities =>
          have he := hEnt es
          rw [hE] at he
          simp only [isOkB] at he
          cases hE2 : mapOrError (fun p =>
              parseEvent p.2 ("frame.events[" ++ natKey p.1 ++ "]")) es2.enum with
          | error m =>
            have he2 := hEvt es2
            rw [hE2] at he2
            simp only [isOkB] at he2
            simp [exceptBind_error, exceptBind_ok, Except.map, isOkB, ← he2, ← he]
          | ok events =>
            have he2 := hEvt es2
            rw [hE2] at he2
            simp only [isOkB] at he2
            cases hTv : ensureFiniteNumber (getField fields "t") "frame.t" with
            | error m =>
              rw [hTv] at hT
              simp only [isOkB] at hT
              simp [exceptBind_error, exceptBind_ok, Except.map, isOkB, ← hT, ← he, ← he2]
            | ok t =>
              rw [hTv] at hT
              simp only [isOkB] at hT
              simp [exceptBind_ok, Except.map, isOkB, pure, Except.pure, ← hT, ← he, ← he2]
      | null => simp [exceptBind_error, isOkB]
      | bool b => simp [exceptBind_error, isOkB]
      | num q => simp [exceptBind_error, isOkB]
      | nonfinite => simp [exceptBind_error, isOkB]
      | str s => simp [exceptBind_error, isOkB]
      | obj fields2 => simp [exceptBind_error, isOkB]
    | undef => rfl
    | null => rfl
    | bool b => rfl
    | num q => rfl
    | nonfinite => rfl
    | str s => rfl
    | obj fields2 => rfl
  case arr elems =>
    have hent : getField (fieldsOf (Jval.arr elems)) "entities" = Jval.undef :=
      getField_fieldsOf_arr elems _ 'n' (by decide) (by decide)
    simp only [parseFrameMessage, conformsFrameMessageRelaxed, conformsFrameWith,
      ensureRecord, isRecordB, if_true, exceptBind_ok, hent]
    rfl
  all_goals rfl

/-- `parseFrameMessage` errors are qualified by a field path rooted at
`frame`. -/
theorem parseFrameMessage_err (v : Jval α) (msg : String)
    (h : parseFrameMessage v = Except.error msg) : "frame".data <+: msg.data := by
  have hlit1 : ("frame" : String).data <+: "frame.entities must be an array".data := by
    decide
  have hlit2 : ("frame" : String).data <+:
      "frame.events must be an array when provided".data := by
    decide
  have hlit3 : ("frame" : String).data <+: "frame.entities[".data := by decide
  have hlit4 : ("frame" : String).data <+: "frame.events[".data := by decide
  have hlit5 : ("frame" : String).data <+: "frame.t".data := by decide
  have hentPath : ∀ (i : Nat) (m : String),
      ("frame.entities[" ++ natKey i ++ "]").data <+: m.data → "frame".data <+: m.data := by
    intro i m hm
    exact ((hlit3.trans (prefix_append_left _ (natKey i))).trans
      (prefix_append_left _ "]")).trans hm
  have hevtPath : ∀ (i : Nat) (m : String),
      ("frame.events[" ++ natKey i ++ "]").data <+: m.data → "frame".data <+: m.data := by
    intro i m hm
    exact ((hlit4.trans (prefix_append_left _ (natKey i))).trans
      (prefix_append_left _ "]")).trans hm
  cases v
  case obj fields =>
    simp only [parseFrameMessage, ensureRecord, isRecordB, if_true, exceptBind_ok,
      fieldsOf] at h
    cases hent : getField fields "entities" with
    | arr es =>
      rw [hent] at h
      dsimp only at h
      cases hevt : getField fields "events" with
      | undef =>
        rw [hevt] at h
        dsimp only at h
        rcases err_of_bind _ _ _ h with h1 | ⟨entities, _, h1⟩
        · rcases mapOrError_err _ _ _ h1 with ⟨p, _, hp⟩
          exact hentPath p.1 msg (parseEntity_err p.2 _ msg hp)
        · exact hlit5.trans (ensureFiniteNumber_err _ _ _ (map_err _ _ _ h1))
      | arr es2 =>
        rw [hevt] at h
        dsimp only at h
        rcases err_of_bind _ _ _ h with h1 | ⟨entities, _, h1⟩
        · rcases mapOrError_err _ _ _ h1 with ⟨p, _, hp⟩
          exact hentPath p.1 msg (parseEntity_err p.2 _ msg hp)
        · rcases err_of_bind _ _ _ h1 with h2 | ⟨y, _, h2⟩
          · rcases mapOrError_err _ _ _ (map_some_err _ _ h2) with ⟨p, _, hp⟩
            exact hevtPath p.1 msg (parseEvent_err p.2 _ msg hp)
          · exact hlit5.trans (ensureFiniteNumber_err _ _ _ (map_err _ _ _ h2))
      | null =>
        rw [hevt] at h
        dsimp only at h
        rw [exceptBind_error] at h
        exact (Except.error.inj h) ▸ hlit2
      | bool b =>
        rw [hevt] at h
        dsimp only at h
        rw [exceptBind_error] at h
        exact (Except.error.inj h) ▸ hlit2
      | num q =>
        rw [hevt] at h
        dsimp only at h
        rw [exceptBind_error] at h
        exact (Except.error.inj h) ▸ hlit2
      | nonfinite =>
        rw [hevt] at h
        dsimp only at h
        rw [exceptBind_error] at h
        exact (Except.error.inj h) ▸ hlit2
      | str s =>
        rw [hevt] at h
        dsimp only at h
        rw [exceptBind_error] at h
        exact (Except.error.inj h) ▸ hlit2
      | obj fields2 =>
        rw [hevt] at h
        dsimp only at h
        rw [exceptBind_error] at h
        exact (Except.error.inj h) ▸ hlit2
    | undef =>
      rw [hent] at h
      dsimp only at h
      rw [exceptBind_error] at h
      exact (Except.error.inj h) ▸ hlit1
    | null =>
      rw [hent] at h
      dsimp only at h
      rw [exceptBind_error] at h
      exact (Except.error.inj h) ▸ hlit1
    | bool b =>
      rw [hent] at h
      dsimp only at h
      rw [exceptBind_error] at h
      exact (Except.error.inj h) ▸ hlit1
    | num q =>
      rw [hent] at h
      dsimp only at h
      rw [exceptBind_error] at h
      exact (Except.error.inj h) ▸ hlit1
    | nonfinite =>
      rw [hent] at h
      dsimp only at h
      rw [exceptBind_error] at h
      exact (Except.error.inj h) ▸ hlit1
    | str s =>
      rw [hent] at h
      dsimp only at h
      rw [exceptBind_error] at h
      exact (Except.error.inj h) ▸ hlit1
    | obj fields2 =>
      rw [hent] at h
      dsimp only at h
      rw [exceptBind_error] at h
      exact (Except.error.inj h) ▸ hlit1
  case arr elems =>
    simp only [parseFrameMessage, ensureRecord, isRecordB, if_true, exceptBind_ok] at h
    have hent : getField (fieldsOf (Jval.arr elems)) "entities" = Jval.undef :=
      getField_fieldsOf_arr elems _ 'n' (by decide) (by decide)
    rw [hent] at h
    dsimp only at h
    rw [exceptBind_error] at h
    exact (Except.error.inj h) ▸ hlit1
  all_goals exact err_prefix_of_append _ _ _ (Except.error.inj h)

/-- C9 (amended): `tryParseFrameMessage` is a total function — the source's
try/catch turns every validation throw into the typed error result, no other
state is mutated — and it returns ok exactly on inputs conforming to the
v1.0 wire schema relaxed in one place: because JS `typeof` classifies arrays
as objects, a `metadata` field may also be a JS array, parsed as a record of
its index-keyed entries (in every other record position an array lacks the
required named fields and is rejected).  On any malformed input it returns
an error whose message is qualified by the offending field path, which
always extends the root path `frame`. -/
theorem tryParseFrameMessage_spec (v : Jval α) :
    ((∃ f, tryParseFrameMessage v = Except.ok f) ↔ conformsFrameMessageRelaxed v = true) ∧
    (∀ msg, tryParseFrameMessage v = Except.error msg → "frame".data <+: msg.data) := by
  constructor
  · rw [← isOkB_iff_exists, show tryParseFrameMessage v = parseFrameMessage v from rfl,
      parseFrameMessage_isOkB]
  · intro msg hmsg
    exact parseFrameMessage_err v msg hmsg

/-- C9 counterexample: a frame whose only entity carries `metadata: []` — a
JS array, obtainable from pure JSON — is accepted by `tryParseFrameMessage`
even though it does not conform to the spec's wire schema, under which
`metadata` must be a JSON object of string/number/boolean values. -/
theorem tryParseFrameMessage_accepts_nonconforming_metadata :
    (∃ f, tryParseFrameMessage c9BadFrame = Except.ok f) ∧
    conformsFrameMessage c9BadFrame = false := by
  constructor
  · exact ⟨_, rfl⟩
  · rfl

/-- Witness for C9 (amended) at concrete inputs: the array-metadata frame
conforms to the relaxed schema and parses, and a non-object input yields a
path-qualified error message. -/
theorem tryParseFrameMessage_spec_witness :
    (∃ f, tryParseFrameMessage c9BadFrame = Except.ok f) ∧
    ("frame".data <+: "frame must be an object".data) := by
  constructor
  · exact (tryParseFrameMessage_spec c9BadFrame).1.mpr rfl
  · exact (tryParseFrameMessage_spec (Jval.null (α := ℚ))).2 "frame must be an object" rfl

end ThreatVector